import Mathlib

/-!
Verification development for the DLMS/COSEM push-listener core:
HDLC FCS computation, acknowledgment frame synthesis, DLMS field decoding,
push-message classification and extraction.  Python sources are embedded
shallowly: bytes become `List Nat` (each element a value below 256), hex
strings become `String`, functions that can raise become `Option`/`Except`
valued, and XML element trees become the inductive type `Elem`.
-/

set_option maxRecDepth 100000
set_option maxHeartbeats 2000000

/-! ## Hex and byte utilities -/

/-- Value of a single hexadecimal digit character, lower or upper case. -/
def hexDigitVal? (c : Char) : Option Nat :=
  if '0'.toNat ≤ c.toNat ∧ c.toNat ≤ '9'.toNat then some (c.toNat - '0'.toNat)
  else if 'a'.toNat ≤ c.toNat ∧ c.toNat ≤ 'f'.toNat then some (c.toNat - 'a'.toNat + 10)
  else if 'A'.toNat ≤ c.toNat ∧ c.toNat ≤ 'F'.toNat then some (c.toNat - 'A'.toNat + 10)
  else none

/-- Shallow embedding of Python `bytes.fromhex`: pairs of hexadecimal digit
characters, with spaces permitted between pairs; `none` models the
`ValueError` raised on malformed input. -/
def fromhexChars? : List Char → Option (List Nat)
  | [] => some []
  | c1 :: rest1 =>
    if c1 = ' ' then fromhexChars? rest1
    else
      match rest1 with
      | [] => none
      | c2 :: rest =>
        match hexDigitVal? c1, hexDigitVal? c2, fromhexChars? rest with
        | some h, some l, some tail => some ((h * 16 + l) :: tail)
        | _, _, _ => none

/-- Shallow embedding of Python `binascii.unhexlify`: strict pairs of
hexadecimal digit characters, no spaces; `none` models the raised error. -/
def unhexlifyChars? : List Char → Option (List Nat)
  | [] => some []
  | c1 :: c2 :: rest =>
    match hexDigitVal? c1, hexDigitVal? c2, unhexlifyChars? rest with
    | some h, some l, some tail => some ((h * 16 + l) :: tail)
    | _, _, _ => none
  | [_] => none

/-- Parse a nonempty string of hexadecimal digit characters as an unsigned
integer, the embedding of Python `int(s, 16)` on the plain digit strings
this code base feeds it. -/
def parseHexNat? (s : String) : Option Nat :=
  if s.isEmpty then none
  else s.toList.foldl
    (fun acc c =>
      match acc, hexDigitVal? c with
      | some a, some d => some (a * 16 + d)
      | _, _ => none)
    (some 0)

/-- ASCII whitespace as Python `str.strip` removes it. -/
def isStripSpace (c : Char) : Bool :=
  c == ' ' || c == '\t' || c == '\n' || c == '\r' || c == '\x0b' || c == '\x0c'

/-- Embedding of Python `str.strip()`: drop leading and trailing
whitespace. -/
def pyStrip (s : String) : String :=
  String.mk ((((s.toList.dropWhile isStripSpace).reverse).dropWhile isStripSpace).reverse)

/-- Left-to-right replacement of the non-overlapping occurrences of a
nonempty pattern, structured on a character budget so that it reduces by
computation; the embedding of Python `str.replace` for the nonempty
patterns this code base uses. -/
def listReplaceFuel (pat rep : List Char) : Nat → List Char → List Char
  | 0, l => l
  | _, [] => []
  | fuel + 1, c :: t =>
    if pat ≠ [] ∧ pat.isPrefixOf (c :: t) then
      rep ++ listReplaceFuel pat rep fuel ((c :: t).drop pat.length)
    else c :: listReplaceFuel pat rep fuel t

/-- Embedding of Python `str.replace` on strings. -/
def pyReplace (s pat rep : String) : String :=
  String.mk (listReplaceFuel pat.toList rep.toList s.toList.length s.toList)

/-- Substring containment, the embedding of Python `pat in s`. -/
def listContainsSub (pat : List Char) : List Char → Bool
  | [] => pat.isPrefixOf []
  | c :: t => pat.isPrefixOf (c :: t) || listContainsSub pat t

/-- Value of a nonempty run of decimal digit characters. -/
def decDigitsVal (l : List Char) : Nat :=
  l.foldl (fun a c => a * 10 + (c.toNat - '0'.toNat)) 0

/-- Parse a nonempty string of decimal digit characters, optionally signed,
the embedding of Python `int(s)` on the strings this code base feeds it. -/
def parseDecInt? (s : String) : Option Int :=
  match s.toList with
  | [] => none
  | '-' :: rest =>
    if rest = [] ∨ ¬ rest.all Char.isDigit then none
    else some (-(Int.ofNat (decDigitsVal rest)))
  | l =>
    if ¬ l.all Char.isDigit then none
    else some (Int.ofNat (decDigitsVal l))

/-- Big-endian two-byte encoding of a value below 2 ^ 16, the embedding of
Python `n.to_bytes(2, 'big')` (the FCS values fed to it are always in
range because the register is masked to 16 bits). -/
def toBytesBE2 (n : Nat) : List Nat :=
  [n / 256, n % 256]

/-- Decimal rendering of a natural number left-padded with zeros to the
given width, the embedding of Python `f"{n:0wd}"` formatting. -/
def padNum (width n : Nat) : String :=
  let s := toString n
  if s.length < width then String.mk (List.replicate (width - s.length) '0') ++ s
  else s

/-! ## FCS engine (src/utils.py, `calculate_fcs`)

The source tries the external `_GXFCS16.countFCS16` primitive first and
falls back to a hand-rolled loop; the loop is the only implementation
present in the repository and is embedded here. -/

/-- One shift-and-reduce round of the fallback loop in `calculate_fcs`:
`if crc & 0x8000: crc = (crc << 1) ^ 0x1021 else: crc <<= 1; crc &= 0xFFFF`. -/
def fcsInnerStep (c : Nat) : Nat :=
  if c &&& 0x8000 ≠ 0 then ((c <<< 1) ^^^ 0x1021) &&& 0xFFFF
  else (c <<< 1) &&& 0xFFFF

/-- The fallback FCS loop of `calculate_fcs` in src/utils.py: register
starts at 0xFFFF; each input byte is XORed into the high byte and the
register is put through eight `fcsInnerStep` rounds. -/
def calculate_fcs (data : List Nat) : Nat :=
  data.foldl
    (fun crc byte => (List.range 8).foldl (fun c _ => fcsInnerStep c) (crc ^^^ (byte <<< 8)))
    0xFFFF

/-- Modelled from the spec: one round of the section 4.1 algorithm, "if
high bit set, shift left and XOR with polynomial 0x1021, masking to 16
bits, else shift left masking to 16 bits", written with arithmetic
(division, multiplication and remainder) rather than bit operations. -/
def specFcsStep (c : Nat) : Nat :=
  if c / 0x8000 % 2 = 1 then ((c * 2) ^^^ 0x1021) % 0x10000
  else c * 2 % 0x10000

/-- Eight (in general `n`) iterations of `specFcsStep`. -/
def specFcsRounds : Nat → Nat → Nat
  | 0, c => c
  | n + 1, c => specFcsRounds n (specFcsStep c)

/-- Modelled from the spec, section 4.1: `computeFCS`, initial register
0xFFFF, each byte XORed into the high byte followed by eight rounds. -/
def computeFCSAux : Nat → List Nat → Nat
  | crc, [] => crc
  | crc, b :: rest => computeFCSAux (specFcsRounds 8 (crc ^^^ (b <<< 8))) rest

/-- Modelled from the spec, section 4.1: the `computeFCS` contract. -/
def computeFCS (data : List Nat) : Nat :=
  computeFCSAux 0xFFFF data

/-- Modelled from the spec: the reference CRC-16/X.25 implementation the
spec demands agreement with (the external `_GXFCS16.countFCS16` table
primitive).  Standard CRC-16/X.25: reflected polynomial 0x8408, initial
register 0xFFFF, one right-shift round per bit, final one's complement;
its check value on the ASCII bytes of "123456789" is 0x906E. -/
def x25Round (c : Nat) : Nat → Nat
  | 0 => c
  | n + 1 => x25Round (if c &&& 1 = 1 then (c >>> 1) ^^^ 0x8408 else c >>> 1) n

/-- Modelled from the spec: reference CRC-16/X.25 over a byte list. -/
def crc16_x25 (data : List Nat) : Nat :=
  0xFFFF ^^^ data.foldl (fun c b => x25Round (c ^^^ (b &&& 0xFF)) 8) 0xFFFF

/-! ## Acknowledgment frame generation (src/message_handler.py,
`MessageProcessor._generate_response`) -/

/-- Clock fields of `datetime.now()` as used by `_generate_response`. -/
structure Now where
  year : Nat
  month : Nat
  day : Nat
  hour : Nat
  minute : Nat
  second : Nat
deriving DecidableEq, Repr

/-- The clock bytes `_generate_response` writes after the `0x0C` tag:
`(year >> 8) & 0xFF, year & 0xFF, month, day, 0xFF, hour, minute, second,
0xFF, 0xFF, 0x4C, 0x00, 0x00` — thirteen bytes in total. -/
def dlmsAckDatetimeBytes (now : Now) : List Nat :=
  [(now.year >>> 8) &&& 0xFF, now.year &&& 0xFF, now.month, now.day, 0xFF,
   now.hour, now.minute, now.second, 0xFF, 0xFF, 0x4C, 0x00, 0x00]

/-- Shallow embedding of `MessageProcessor._generate_response`: builds the
HDLC acknowledgment frame from the address field, the cleaned invoke-id
hex string and the current clock.  `none` models the caught exceptions:
a malformed invoke-id hex string (`bytes.fromhex` raises) or a length
value not fitting one byte (`bytes([length])` raises). -/
def generate_response (address_field : List Nat) (invoke_clean_hex : String)
    (now : Now) : Option (List Nat) :=
  match fromhexChars? invoke_clean_hex.toList with
  | none => none
  | some invokeBytes =>
    let pduResponse := 0x10 :: (invokeBytes ++ 0x0C :: dlmsAckDatetimeBytes now)
    let informationField := 0x13 :: 0xE6 :: 0xE7 :: 0x00 :: pduResponse
    let length := (address_field ++ informationField).length + 6
    if length < 256 then
      let fcsHandler := toBytesBE2 (calculate_fcs (0xA0 :: length :: (address_field ++ [0x13])))
      let payload := address_field ++ [0x13] ++ fcsHandler ++ [0xE6, 0xE7, 0x00] ++ pduResponse
      let fcs := toBytesBE2 (calculate_fcs (0xA0 :: length :: payload))
      some ((0x7E :: 0xA0 :: length :: payload) ++ fcs ++ [0x7E])
    else none

/-- Modelled from the spec/claim: the acknowledgment PDU body, tag byte
0x10, the four raw invoke-id bytes, then tag byte 0x0C followed by the
enumerated clock layout. -/
def specAckPdu (inv : List Nat) (now : Now) : List Nat :=
  0x10 :: (inv ++ 0x0C :: dlmsAckDatetimeBytes now)

/-- Modelled from the spec/claim: the information field, `0x13` plus the
LLC header `0xE6 0xE7 0x00` plus the PDU body. -/
def specAckInfo (inv : List Nat) (now : Now) : List Nat :=
  0x13 :: 0xE6 :: 0xE7 :: 0x00 :: specAckPdu inv now

/-- Modelled from the spec/claim: the length byte,
`len(addressField) + len(informationField) + 6`. -/
def specAckLen (addr inv : List Nat) (now : Now) : Nat :=
  addr.length + (specAckInfo inv now).length + 6

/-- Modelled from the spec/claim: FCS1, the CRC16 of
`0xA0 ++ length ++ addressField ++ 0x13`. -/
def specAckFcs1 (addr inv : List Nat) (now : Now) : Nat :=
  calculate_fcs (0xA0 :: specAckLen addr inv now :: (addr ++ [0x13]))

/-- Modelled from the spec/claim: FCS2, the CRC16 of
`0xA0 ++ length ++ addressField ++ 0x13 ++ FCS1 ++ 0xE6 0xE7 0x00 ++ PDUbody`. -/
def specAckFcs2 (addr inv : List Nat) (now : Now) : Nat :=
  calculate_fcs ((0xA0 :: specAckLen addr inv now :: (addr ++ [0x13]))
    ++ toBytesBE2 (specAckFcs1 addr inv now) ++ (0xE6 :: 0xE7 :: 0x00 :: specAckPdu inv now))

/-- Modelled from the spec/claim: the full acknowledgment frame
`0x7E, 0xA0, length, addressField, 0x13, FCS1(2B,BE), 0xE6 0xE7 0x00,
PDUbody, FCS2(2B,BE), 0x7E`. -/
def specAckFrame (addr inv : List Nat) (now : Now) : List Nat :=
  (0x7E :: 0xA0 :: specAckLen addr inv now
      :: (addr ++ [0x13] ++ toBytesBE2 (specAckFcs1 addr inv now)
          ++ [0xE6, 0xE7, 0x00] ++ specAckPdu inv now))
    ++ toBytesBE2 (specAckFcs2 addr inv now) ++ [0x7E]

/-! ## XML element trees

Decoded DLMS messages arrive as `xml.etree.ElementTree` trees; they are
modelled as nodes carrying the tag, the optional `Value` and `Qty`
attributes, the optional text payload and the child list. -/

/-- A DLMS XML element: tag, `Value` attribute, `Qty` attribute, text,
children.  `none` models an absent attribute (Python `get` default). -/
inductive Elem where
  | node (tag : String) (value : Option String) (qty : Option String)
      (text : Option String) (children : List Elem)
deriving Repr

def Elem.tag : Elem → String
  | .node t _ _ _ _ => t

def Elem.value : Elem → Option String
  | .node _ v _ _ _ => v

def Elem.qty : Elem → Option String
  | .node _ _ q _ _ => q

def Elem.text : Elem → Option String
  | .node _ _ _ x _ => x

def Elem.children : Elem → List Elem
  | .node _ _ _ _ cs => cs

mutual

/-- All elements of the subtree rooted at `e`, in document (preorder)
order, the element itself included — Python `elem.iter()`. -/
def Elem.iterAll : Elem → List Elem
  | .node t v q x cs => .node t v q x cs :: Elem.iterList cs

/-- Document-order iteration over a forest of sibling subtrees. -/
def Elem.iterList : List Elem → List Elem
  | [] => []
  | e :: es => Elem.iterAll e ++ Elem.iterList es

end

/-- The proper descendants of `e` in document order (the `.//` axis of
`ElementTree`, which excludes the element itself). -/
def Elem.descendants (e : Elem) : List Elem :=
  Elem.iterList e.children

/-- First proper descendant with the given tag:
`root.find(".//" + tag)`. -/
def findDescTag (root : Elem) (t : String) : Option Elem :=
  (root.descendants.filter (fun e => e.tag == t)).head?

/-- First match of `root.find(".//" ++ t1 ++ "/" ++ t2)`: descendants
with tag `t1` in document order, then their children with tag `t2`. -/
def findDesc2 (root : Elem) (t1 t2 : String) : Option Elem :=
  ((root.descendants.filter (fun e => e.tag == t1)).flatMap
    (fun d => d.children.filter (fun c => c.tag == t2))).head?

/-- First child with tag `Array` of a structure, paired with the siblings
that follow it. -/
def firstArrayChildCtx : List Elem → Option (Elem × List Elem)
  | [] => none
  | c :: cs => if c.tag == "Array" then some (c, cs) else firstArrayChildCtx cs

/-- Combined embedding of `root.find(".//DataValue/Structure/Array")`
followed by `_find_parent(root, obis_array)` and the
`all_children.index(obis_array)` slice in
`extract_obis_values_and_invoke_id` (src/Push_Parser.py): yields the first
OBIS array in pipeline order together with the sibling elements after it
inside its parent structure.  The identity-based parent search of
`_find_parent` always returns the actual parent of the found array (every
node below the root has exactly one), so the source's `parent is None`
placeholder branch is unreachable and not modelled. -/
def findObisArrayCtx (root : Elem) : Option (Elem × List Elem) :=
  (((root.descendants.filter (fun e => e.tag == "DataValue")).flatMap
      (fun dv => dv.children.filter (fun c => c.tag == "Structure"))).filterMap
    (fun st => firstArrayChildCtx st.children)).head?

/-! ## Field decoders shared by the parsers -/

/-- Uppercase and keep only hexadecimal digit characters, the embedding of
`''.join(c for c in value.upper() if c in "0123456789ABCDEF")`. -/
def cleanHexUpper (s : String) : String :=
  String.mk ((s.toList.map Char.toUpper).filter (fun c => "0123456789ABCDEF".toList.contains c))

/-- Decode a byte list as 7-bit ASCII, the embedding of
`.decode('ascii')`; `none` models the `UnicodeDecodeError`. -/
def asciiDecode? (bytes : List Nat) : Option String :=
  if bytes.all (· < 128) then some (String.mk (bytes.map Char.ofNat)) else none

/-- Dotted OBIS rendering used inline by `extract_obis_values_and_invoke_id`:
a 12-character value is split into six two-character slices parsed as
hexadecimal and joined with dots; parse failures and other lengths keep
the value verbatim. -/
def obisDotted (hexVal : String) : String :=
  if hexVal.length == 12 then
    match unhexlifyChars? hexVal.toList with
    | some parts => String.intercalate "." (parts.map toString)
    | none => hexVal
  else hexVal

/-- Shallow embedding of `hex_to_obis` (src/DLMS_Parser.py): a string of
length other than 12 is returned unchanged; a 12-character string is
converted to dotted decimal.  `none` models the uncaught `ValueError`
that `int(slice, 16)` raises on a 12-character string with non-hex
characters — `hex_to_obis` has no exception handler of its own. -/
def hex_to_obis (obis_hex : String) : Option String :=
  if obis_hex.length ≠ 12 then some obis_hex
  else (unhexlifyChars? obis_hex.toList).map
    (fun parts => String.intercalate "." (parts.map toString))

/-- Substring test via `splitOn`, the embedding of Python `pat in s`. -/
def strContainsSub (s pat : String) : Bool :=
  listContainsSub pat.toList s.toList

/-- Invoke-id extraction shared by `extract_obis_values_and_invoke_id` and
`parse_new_style_push`: first `LongInvokeIdAndPriority` descendant, strip
non-hex characters, require at least 8, parse everything after the first
two as an unsigned hexadecimal integer. -/
def extractInvokeId (root : Elem) : Option Nat :=
  match findDescTag root "LongInvokeIdAndPriority" with
  | none => none
  | some el =>
    let hexVal := el.value.getD ""
    if hexVal = "" then none
    else
      let clean := cleanHexUpper hexVal
      if clean.length ≥ 8 then parseHexNat? (clean.drop 2) else none

/-! ## OBIS-push extraction (src/Push_Parser.py,
`extract_obis_values_and_invoke_id`) -/

/-- Result of `_parse_xml_element_value`: one constructor per supported
tag, carrying the same derived fields the Python dictionaries carry. -/
inductive PVal where
  | enum (value : String)
  | octetString (value : String) (obis : Option String) (ascii : Option String)
  | uint32 (value : String) (decimal : Option String)
  | uint16 (value : String) (decimal : Option String)
  | uint8 (value : String) (decimal : Option String)
  | int8 (value : String) (decimal : Option String)
  | struct (qty : String) (fields : List PVal)
  | arr (qty : String) (items : List PVal)
  | other (tag : String) (value : String)
  | emptyVal (value : String)
  | missingVal (value : String)
deriving Repr

mutual

/-- Shallow embedding of `_parse_xml_element_value`: unified typed
representation of one value element, recursing into structures and
arrays. -/
def parseXmlValue : Elem → PVal
  | .node tag value qty _ cs =>
    if tag = "Enum" then .enum (value.getD "")
    else if tag = "OctetString" then
      let hexVal := value.getD ""
      .octetString hexVal
        (if hexVal.length == 12 then
          (unhexlifyChars? hexVal.toList).map
            (fun parts => String.intercalate "." (parts.map toString))
        else none)
        ((fromhexChars? hexVal.toList).bind asciiDecode?)
    else if tag = "UInt32" then
      let hexVal := value.getD ""
      .uint32 hexVal ((parseHexNat? hexVal).map toString)
    else if tag = "UInt16" then
      let hexVal := value.getD ""
      .uint16 hexVal ((parseHexNat? hexVal).map toString)
    else if tag = "UInt8" then
      let hexVal := value.getD ""
      .uint8 hexVal ((parseHexNat? hexVal).map toString)
    else if tag = "Int8" then
      let hexVal := value.getD ""
      .int8 hexVal ((parseHexNat? hexVal).map
        (fun num => toString (if num > 127 then (num : Int) - 256 else (num : Int))))
    else if tag = "Structure" then .struct (qty.getD "0") (parseXmlValueList cs)
    else if tag = "Array" then .arr (qty.getD "0") (parseXmlValueList cs)
    else .other tag ("[" ++ tag ++ "]")

def parseXmlValueList : List Elem → List PVal
  | [] => []
  | e :: es => parseXmlValue e :: parseXmlValueList es

end

/-- Comment capture for an OBIS entry: the element text when it embeds an
inline `<!-- ... -->`, otherwise the text of the last child whose tag
contains "Comment", otherwise empty. -/
def extractComment (octet : Elem) : String :=
  let txt := octet.text.getD ""
  if txt ≠ "" ∧ strContainsSub txt "<!--" = true then
    pyStrip (pyReplace (pyReplace (pyStrip txt) "<!--" "") "-->" "")
  else if octet.children.isEmpty then ""
  else
    octet.children.foldl
      (fun acc c => if strContainsSub c.tag "Comment" then pyStrip (c.text.getD "") else acc) ""

/-- One OBIS entry of the array: dotted OBIS, raw hex and comment, taken
from the first `OctetString` child; structures without one are skipped. -/
structure ObisEntry where
  obis : String
  hex : String
  comment : String
deriving DecidableEq, Repr

/-- One assembled push record. -/
structure ObisRecord where
  obis : String
  value : PVal
  comment : String
deriving Repr

/-- Result of `extract_obis_values_and_invoke_id`. -/
structure ObisResult where
  invoke_id : Option Nat
  records : List ObisRecord
deriving Repr

/-- Entry extraction for one `Structure` child of the OBIS array. -/
def obisEntryOf? (st : Elem) : Option ObisEntry :=
  match st.children.find? (fun c => c.tag == "OctetString") with
  | none => none
  | some octet =>
    let hexVal := octet.value.getD ""
    some ⟨obisDotted hexVal, hexVal, extractComment octet⟩

/-- Record assembly of `extract_obis_values_and_invoke_id`: the first
record's value is the Empty sentinel; record `i` (`i ≥ 1`) takes decoded
value `i - 1`, or the Missing sentinel when the values list is shorter. -/
def assembleRecords (entries : List ObisEntry) (values : List PVal) : List ObisRecord :=
  entries.enum.map (fun p =>
    { obis := p.2.obis,
      value := if p.1 = 0 then .emptyVal "" else values.getD (p.1 - 1) (.missingVal "[missing]"),
      comment := p.2.comment })

/-- Shallow embedding of `extract_obis_values_and_invoke_id`
(src/Push_Parser.py): invoke-id, then the OBIS array with its following
siblings; `max(0, entries - 1)` of the siblings are decoded as values and
records are assembled by the offset-by-one convention. -/
def extract_obis_values_and_invoke_id (root : Elem) : ObisResult :=
  let invokeId := extractInvokeId root
  match findObisArrayCtx root with
  | none => ⟨invokeId, []⟩
  | some (arr, after) =>
    let entries := (arr.children.filter (fun c => c.tag == "Structure")).filterMap obisEntryOf?
    let expectedValues := entries.length - 1
    let values := (after.take expectedValues).map parseXmlValue
    ⟨invokeId, assembleRecords entries values⟩

/-! ## Day-push parsing (src/Push_Parser.py, `is_new_style_push`,
`_parse_dlms_datetime`, `parse_new_style_push`, `parse_dlms_push_xml`) -/

/-- Shallow embedding of `is_new_style_push`: true exactly when the first
`Structure` anywhere inside the first `NotificationBody/DataValue` has a
first child that is an `OctetString` whose value length differs from 12. -/
def is_new_style_push (root : Elem) : Bool :=
  match findDesc2 root "NotificationBody" "DataValue" with
  | none => false
  | some dv =>
    match (dv.iterAll.filter (fun e => e.tag == "Structure")).head? with
    | none => false
    | some st =>
      match st.children with
      | [] => false
      | first :: _ =>
        if first.tag != "OctetString" then false
        else (first.value.getD "").length != 12

/-- Signed 16-bit interpretation of a big-endian two-byte word, the
embedding of `int.from_bytes(b, 'big', signed=True)` on two bytes. -/
def toSigned16 (hi lo : Nat) : Int :=
  let raw := hi * 256 + lo
  if raw ≥ 32768 then (raw : Int) - 65536 else (raw : Int)

/-- Gregorian leap-year test, as `datetime` uses it. -/
def isLeapYear (y : Nat) : Bool :=
  (y % 4 == 0 && y % 100 != 0) || y % 400 == 0

/-- Days in a month, as `datetime` validates the day field. -/
def daysInMonth (y m : Nat) : Nat :=
  if m = 2 then (if isLeapYear y then 29 else 28)
  else if m = 4 ∨ m = 6 ∨ m = 9 ∨ m = 11 then 30
  else 31

/-- Validity of the fields `datetime(year, month, day, hour, minute,
second)` accepts without raising `ValueError`. -/
def validDatetimeFields (year month day hour minute second : Nat) : Prop :=
  1 ≤ year ∧ year ≤ 9999 ∧ 1 ≤ month ∧ month ≤ 12 ∧ 1 ≤ day ∧
    day ≤ daysInMonth year month ∧ hour < 24 ∧ minute < 60 ∧ second < 60

instance (year month day hour minute second : Nat) :
    Decidable (validDatetimeFields year month day hour minute second) := by
  unfold validDatetimeFields
  infer_instance

/-- ISO 8601 fixed-offset suffix as `datetime.isoformat` renders an
aware datetime's `timezone(timedelta(minutes=offsetMin))`. -/
def tzSuffix (offsetMin : Int) : String :=
  let sign := if offsetMin < 0 then "-" else "+"
  let a := offsetMin.natAbs
  sign ++ padNum 2 (a / 60) ++ ":" ++ padNum 2 (a % 60)

/-- ISO 8601 rendering of an aware datetime, `datetime.isoformat()`. -/
def isoFormat (year month day hour minute second : Nat) (offsetMin : Int) : String :=
  padNum 4 year ++ "-" ++ padNum 2 month ++ "-" ++ padNum 2 day ++ "T" ++
    padNum 2 hour ++ ":" ++ padNum 2 minute ++ ":" ++ padNum 2 second ++ tzSuffix offsetMin

/-- Shallow embedding of `_parse_dlms_datetime` (src/Push_Parser.py):
decode at least 12 bytes, read the deviation as a signed 16-bit word,
build a fixed-offset timezone unless the deviation equals 0x8000 (then
UTC), and render the datetime in ISO 8601.  `Except.error` models the
raised exceptions: malformed hex, short input, a timezone offset not
strictly between -24h and +24h (`timezone` raises), or out-of-range
datetime fields (`datetime` raises). -/
def parse_dlms_datetime (hex_str : String) : Except String String :=
  match fromhexChars? hex_str.toList with
  | none => .error "ValueError: non-hexadecimal number found"
  | some b =>
    if b.length < 12 then .error "Invalid DLMS DateTime length"
    else
      let year := b.getD 0 0 * 256 + b.getD 1 0
      let month := b.getD 2 0
      let day := b.getD 3 0
      let hour := b.getD 5 0
      let minute := b.getD 6 0
      let second := b.getD 7 0
      let deviation := toSigned16 (b.getD 9 0) (b.getD 10 0)
      if deviation ≠ 32768 ∧ ¬(-1440 < deviation ∧ deviation < 1440) then
        .error "ValueError: offset must be a timedelta strictly between -timedelta(hours=24) and timedelta(hours=24)"
      else
        let offset : Int := if deviation ≠ 32768 then deviation else 0
        if validDatetimeFields year month day hour minute second then
          .ok (isoFormat year month day hour minute second offset)
        else .error "ValueError: invalid datetime field"

/-- The same parse with the dead `timezone.utc` branch removed: the
deviation is used as the offset unconditionally. -/
def parse_dlms_datetime_noUtcBranch (hex_str : String) : Except String String :=
  match fromhexChars? hex_str.toList with
  | none => .error "ValueError: non-hexadecimal number found"
  | some b =>
    if b.length < 12 then .error "Invalid DLMS DateTime length"
    else
      let year := b.getD 0 0 * 256 + b.getD 1 0
      let month := b.getD 2 0
      let day := b.getD 3 0
      let hour := b.getD 5 0
      let minute := b.getD 6 0
      let second := b.getD 7 0
      let deviation := toSigned16 (b.getD 9 0) (b.getD 10 0)
      if ¬(-1440 < deviation ∧ deviation < 1440) then
        .error "ValueError: offset must be a timedelta strictly between -timedelta(hours=24) and timedelta(hours=24)"
      else if validDatetimeFields year month day hour minute second then
        .ok (isoFormat year month day hour minute second deviation)
      else .error "ValueError: invalid datetime field"

/-- Shallow embedding of `_hex_to_ascii`: ASCII decoding with the
original string kept on failure. -/
def hexToAscii (hex_str : String) : String :=
  match (fromhexChars? hex_str.toList).bind asciiDecode? with
  | some s => s
  | none => hex_str

/-- One row of a day-push table. -/
structure DayRow where
  timestamp : String
  values : List Int
deriving DecidableEq, Repr

/-- Result of `parse_new_style_push`. -/
structure DayPush where
  invoke_id : Option Nat
  logical_name : String
  data : List DayRow
deriving DecidableEq, Repr

/-- The row loop of `parse_new_style_push`: a `Structure` yields a row
only when it has children, the first child is an `OctetString` and its
value parses as a DLMS datetime; the row's values are the decimal parses
of the `UInt32` siblings (0 on parse failure). -/
def dayRowOf? (rowElem : Elem) : Option DayRow :=
  match rowElem.children with
  | [] => none
  | dateOctet :: rest =>
    if dateOctet.tag != "OctetString" then none
    else
      match parse_dlms_datetime (dateOctet.value.getD "") with
      | .error _ => none
      | .ok iso =>
        some ⟨iso, (rest.filter (fun v => v.tag == "UInt32")).map
          (fun v => (parseDecInt? (v.value.getD "0")).getD 0)⟩

/-- Shallow embedding of `parse_new_style_push` (src/Push_Parser.py).
`Except.error` models the uncaught exceptions: a missing
`NotificationBody/DataValue` (iterating `None` raises `TypeError`), no
`Structure` child (the explicit `ValueError`), or fewer than two children
of the structure (`IndexError`). -/
def parse_new_style_push (root : Elem) : Except String DayPush :=
  let invokeId := extractInvokeId root
  match findDesc2 root "NotificationBody" "DataValue" with
  | none => .error "TypeError: NoneType object is not iterable"
  | some dv =>
    match (dv.children.filter (fun c => c.tag == "Structure")).head? with
    | none => .error "No root Structure in DataValue"
    | some st =>
      match st.children with
      | c0 :: c1 :: _ =>
        let logicalName := hexToAscii (c0.value.getD "")
        let rows := (c1.children.filter (fun c => c.tag == "Structure")).filterMap dayRowOf?
        .ok ⟨invokeId, logicalName, rows⟩
      | _ => .error "IndexError: list index out of range"

/-- Union result of `parse_dlms_push_xml`. -/
inductive PushResult where
  | dayPush (d : DayPush)
  | obisPush (o : ObisResult)
deriving Repr

/-- The `type` key `parse_dlms_push_xml` stores in its result. -/
def PushResult.typeLabel : PushResult → String
  | .dayPush _ => "day_push"
  | .obisPush _ => "obis_push"

/-- Shallow embedding of `parse_dlms_push_xml` (and the identical
`process_dlms_message`): route through the shape check. -/
def parse_dlms_push_xml (root : Elem) : Except String PushResult :=
  if is_new_style_push root then (parse_new_style_push root).map .dayPush
  else .ok (.obisPush (extract_obis_values_and_invoke_id root))

/-! ## DLMS datetime field decoder (src/DLMS_Parser.py,
`try_decode_dlms_datetime`) -/

/-- Shallow embedding of `try_decode_dlms_datetime`: hex strings of 10 to
24 characters, even length; renders the date part and/or time part when
fully specified (0xFF/0xFFFF sentinels mean unspecified) and appends a
UTC offset when at least 11 bytes are present and the big-endian
deviation word is neither 0x8000 nor zero.  `none` models both the early
returns and the caught exceptions. -/
def try_decode_dlms_datetime (hex_str : String) : Option String :=
  if hex_str.length < 10 ∨ hex_str.length > 24 ∨ hex_str.length % 2 ≠ 0 then none
  else
    match unhexlifyChars? hex_str.toList with
    | none => none
    | some data =>
      if data.length < 5 then none
      else
        let year := (data.getD 0 0) <<< 8 ||| data.getD 1 0
        let month := data.getD 2 0
        let day := data.getD 3 0
        let hour := if data.length > 5 then data.getD 5 0 else 0xFF
        let minute := if data.length > 6 then data.getD 6 0 else 0xFF
        let second := if data.length > 7 then data.getD 7 0 else 0xFF
        let hasDate := year != 0xFFFF && month != 0xFF && day != 0xFF
        let hasTime := hour != 0xFF && minute != 0xFF && second != 0xFF
        if !(hasDate || hasTime) then none
        else
          let parts :=
            (if hasDate then [padNum 4 year ++ "-" ++ padNum 2 month ++ "-" ++ padNum 2 day]
             else []) ++
            (if hasTime then [padNum 2 hour ++ ":" ++ padNum 2 minute ++ ":" ++ padNum 2 second]
             else [])
          let result := String.intercalate " " parts
          if data.length ≥ 11 then
            let devRaw := (data.getD 9 0) <<< 8 ||| data.getD 10 0
            if devRaw ≠ 0x8000 then
              let devSigned : Int :=
                if devRaw > 32767 then (devRaw : Int) - 65536 else (devRaw : Int)
              if devSigned ≠ 0 then
                let sign := if devSigned ≥ 0 then "+" else "-"
                let totalMin := devSigned.natAbs
                if totalMin % 60 = 0 then
                  some (result ++ " UTC" ++ sign ++ padNum 2 (totalMin / 60))
                else
                  some (result ++ " UTC" ++ sign ++ padNum 2 (totalMin / 60) ++ ":" ++
                    padNum 2 (totalMin % 60))
              else some result
            else some result
          else some result

/-- Modelled from the spec: "full date" — year, month and day all differ
from their 0xFFFF/0xFF sentinels. -/
def dlmsHasDate (data : List Nat) : Bool :=
  ((data.getD 0 0) <<< 8 ||| data.getD 1 0) != 0xFFFF &&
    data.getD 2 0 != 0xFF && data.getD 3 0 != 0xFF

/-- Modelled from the spec: "full time" — hour, minute and second (bytes
5, 6, 7, defaulting to the sentinel when absent) all differ from 0xFF. -/
def dlmsHasTime (data : List Nat) : Bool :=
  (if data.length > 5 then data.getD 5 0 else 0xFF) != 0xFF &&
    (if data.length > 6 then data.getD 6 0 else 0xFF) != 0xFF &&
    (if data.length > 7 then data.getD 7 0 else 0xFF) != 0xFF

/-- The UTC-offset suffix stage shared by the decoder and its spec-side
rendering: when at least 11 bytes are present and the big-endian
deviation word is neither 0x8000 nor zero, append " UTC" with sign "+"
for nonnegative signed minutes and "-" for negative, hours zero-padded,
":MM" only for a fractional-hour offset. -/
def utcSuffixed (data : List Nat) (base : String) : String :=
  if data.length ≥ 11 then
    let devRaw := (data.getD 9 0) <<< 8 ||| data.getD 10 0
    if devRaw ≠ 0x8000 then
      let devSigned : Int :=
        if devRaw > 32767 then (devRaw : Int) - 65536 else (devRaw : Int)
      if devSigned ≠ 0 then
        let sign := if devSigned ≥ 0 then "+" else "-"
        let totalMin := devSigned.natAbs
        if totalMin % 60 = 0 then base ++ " UTC" ++ sign ++ padNum 2 (totalMin / 60)
        else base ++ " UTC" ++ sign ++ padNum 2 (totalMin / 60) ++ ":" ++ padNum 2 (totalMin % 60)
      else base
    else base
  else base

/-- Modelled from the spec: the rendering the claim describes — date part
and/or time part, space-joined, each included only when fully specified,
then the UTC offset suffix stage. -/
def dlmsRender (data : List Nat) : String :=
  let year := (data.getD 0 0) <<< 8 ||| data.getD 1 0
  let parts :=
    (if dlmsHasDate data then
      [padNum 4 year ++ "-" ++ padNum 2 (data.getD 2 0) ++ "-" ++ padNum 2 (data.getD 3 0)]
     else []) ++
    (if dlmsHasTime data then
      [padNum 2 (if data.length > 5 then data.getD 5 0 else 0xFF) ++ ":" ++
        padNum 2 (if data.length > 6 then data.getD 6 0 else 0xFF) ++ ":" ++
        padNum 2 (if data.length > 7 then data.getD 7 0 else 0xFF)]
     else [])
  utcSuffixed data (String.intercalate " " parts)

/-! ## Day-push entry classification and interval validation
(src/utils.py, `classify_day_push_entry`, `validate_day_push_intervals`) -/

/-- The persisted day-push entry shape both functions consume: a `data`
list of timestamped value rows. -/
structure DayEntry where
  data : List DayRow
deriving DecidableEq, Repr

/-- Shallow embedding of `classify_day_push_entry`: "daily" for a first
row of exactly 20 values, "half_hourly" for exactly 4, otherwise
"unknown" (also for an empty data list). -/
def classify_day_push_entry (entry : DayEntry) : String :=
  match entry.data with
  | [] => "unknown"
  | first :: _ =>
    if first.values.length = 20 then "daily"
    else if first.values.length = 4 then "half_hourly"
    else "unknown"

/-- Days from the civil epoch 1970-01-01 for a proleptic Gregorian date,
the standard era-based algorithm; used to give ISO timestamps an absolute
time line. -/
def daysFromCivil (y m d : Int) : Int :=
  let y2 := if m ≤ 2 then y - 1 else y
  let era := (if 0 ≤ y2 then y2 else y2 - 399) / 400
  let yoe := y2 - era * 400
  let mp := if 2 < m then m - 3 else m + 9
  let doy := (153 * mp + 2) / 5 + d - 1
  let doe := yoe * 365 + yoe / 4 - yoe / 100 + doy
  era * 146097 + doe - 719468

/-- Parse a fixed-offset ISO 8601 timestamp
`YYYY-MM-DDTHH:MM:SS±HH:MM` (also with a space separator, and after the
source's `replace("Z", "+00:00")`) to seconds since the epoch, UTC.  The
embedding of `datetime.fromisoformat` on the aware timestamps this
pipeline produces; other shapes yield `none` (a parse failure). -/
def parseIsoAware? (ts : String) : Option Int :=
  let cs := (pyReplace ts "Z" "+00:00").toList
  match cs with
  | y1 :: y2 :: y3 :: y4 :: '-' :: m1 :: m2 :: '-' :: d1 :: d2 :: sep :: h1 :: h2 :: ':' ::
      mi1 :: mi2 :: ':' :: s1 :: s2 :: sgn :: oh1 :: oh2 :: ':' :: om1 :: om2 :: [] =>
    if (sep = 'T' ∨ sep = ' ') ∧ (sgn = '+' ∨ sgn = '-') ∧
        [y1, y2, y3, y4, m1, m2, d1, d2, h1, h2, mi1, mi2, s1, s2, oh1, oh2, om1, om2].all
          Char.isDigit then
      let dig := fun c : Char => (c.toNat - '0'.toNat : Int)
      let year := dig y1 * 1000 + dig y2 * 100 + dig y3 * 10 + dig y4
      let month := dig m1 * 10 + dig m2
      let day := dig d1 * 10 + dig d2
      let hh := dig h1 * 10 + dig h2
      let mi := dig mi1 * 10 + dig mi2
      let ss := dig s1 * 10 + dig s2
      let offMin := (dig oh1 * 10 + dig oh2) * 60 + (dig om1 * 10 + dig om2)
      let off := if sgn = '-' then -offMin else offMin
      if 1 ≤ month ∧ month ≤ 12 ∧ 1 ≤ day ∧ day ≤ 31 ∧ hh < 24 ∧ mi < 60 ∧ ss < 60 then
        some (daysFromCivil year month day * 86400 + hh * 3600 + mi * 60 + ss - off * 60)
      else none
    else none
  | _ => none

/-- Insertion of a value into a sorted integer list. -/
def insertSorted (x : Int) : List Int → List Int
  | [] => [x]
  | y :: ys => if x ≤ y then x :: y :: ys else y :: insertSorted x ys

/-- Sorting of the parsed timestamps, the embedding of `timestamps.sort()`
(aware datetimes compare by their UTC instant). -/
def sortInts (l : List Int) : List Int :=
  l.foldr insertSorted []

/-- Parse and collect the row timestamps; `none` models the exception
aborting the loop on the first unparsable timestamp. -/
def parseTimestamps? : List DayRow → Option (List Int)
  | [] => some []
  | r :: rest =>
    match parseIsoAware? r.timestamp, parseTimestamps? rest with
    | some t, some ts => some (t :: ts)
    | _, _ => none

/-- Shallow embedding of `validate_day_push_intervals` (src/utils.py):
trivially valid below two rows, expected delta 24 hours for `"daily"` and
30 minutes otherwise, timestamps parsed and sorted, every consecutive
difference must equal the delta exactly; any parse failure invalidates. -/
def validate_day_push_intervals (entry : DayEntry) (profile : String) : Bool :=
  if entry.data.length < 2 then true
  else
    let expectedDelta : Int := if profile = "daily" then 86400 else 1800
    match parseTimestamps? entry.data with
    | none => false
    | some ts =>
      let sorted := sortInts ts
      (sorted.zip sorted.tail).all (fun p => p.2 - p.1 == expectedDelta)

/-! ## Invoke-id and priority decoding (src/DLMS_Parser.py,
`enhance_xml_element` and `extract_dlms_request_info`) -/

/-- Shallow embedding of the `LongInvokeIdAndPriority` branch of
`enhance_xml_element`: the two comment strings and the decimal invoke-id
attached for a value with at least 8 hex characters after cleaning;
`none` when the branch does not fire. -/
def decode_long_invoke (value : String) : Option (String × String × Option Nat) :=
  let cleanL := (cleanHexUpper value).toList
  if cleanL ≠ [] ∧ cleanL.length ≥ 8 then
    let highByte := String.mk (cleanL.take 2)
    let invokeDec := parseHexNat? (String.mk (cleanL.drop 2))
    if highByte = "40" then some ("Normal priority.", "Confirmed service.", invokeDec)
    else if highByte = "80" then some ("High priority.", "Non-confirmed service.", invokeDec)
    else if highByte = "C0" then some ("High priority.", "Confirmed service.", invokeDec)
    else some ("Priority byte: 0x" ++ highByte, "Service type unknown.", invokeDec)
  else none

/-- Shallow embedding of the `LongInvokeIdAndPriority` case of
`extract_dlms_request_info`'s tree walk: every matching element
overwrites the stored `(high_byte, invoke_id)` pair, so the last
qualifying element in document order wins. -/
def extract_request_invoke (root : Elem) : Option (String × String) :=
  root.iterAll.foldl
    (fun acc el =>
      if el.tag == "LongInvokeIdAndPriority" then
        let val := pyStrip (el.value.getD "")
        if val ≠ "" then
          let clean := cleanHexUpper val
          if clean.toList ≠ [] ∧ clean.toList.length ≥ 8 then
            some (String.mk (clean.toList.take 2), String.mk (clean.toList.drop 2))
          else acc
        else acc
      else acc)
    none

/-! ## Autoconnect recognition (src/message_handler.py,
`AUTOCONNECT_PATTERN` and `MessageProcessor._is_autoconnect`)

Both the implementation pattern `<sn=(\S+)\s+ip=([\d.]+)\s+pt=(\d+)>` and
the spec's pattern `<sn=(\S+) ip=(\d+\.\d+\.\d+\.\d+) pt=(\d+)>` have
every repeated character class immediately followed by a required token
outside that class, so greedy matching admits exactly one candidate run
per group and `re.search` at a fixed position reduces to a deterministic
maximal-munch matcher; the leftmost matching position wins. -/

/-- ASCII whitespace in the sense of the regex class `\s`. -/
def isPySpace (c : Char) : Bool :=
  c == ' ' || c == '\t' || c == '\n' || c == '\r' || c == '\x0b' || c == '\x0c'

/-- Match a literal character sequence, returning the remainder. -/
def litPfx : List Char → List Char → Option (List Char)
  | [], cs => some cs
  | _ :: _, [] => none
  | p :: ps, c :: cs => if c = p then litPfx ps cs else none

/-- Maximal nonempty run of characters satisfying `p`, with remainder. -/
def takeRun1 (p : Char → Bool) (cs : List Char) : Option (List Char × List Char) :=
  let run := cs.takeWhile p
  if run.isEmpty then none else some (run, cs.dropWhile p)

/-- Match of the implementation's autoconnect pattern
`<sn=(\S+)\s+ip=([\d.]+)\s+pt=(\d+)>` anchored at the head of the list,
returning the three captured groups. -/
def srcMatchAt (cs : List Char) : Option (String × String × String) :=
  match litPfx "<sn=".toList cs with
  | none => none
  | some cs1 =>
    match takeRun1 (fun c => !isPySpace c) cs1 with
    | none => none
    | some (sn, cs2) =>
      match takeRun1 isPySpace cs2 with
      | none => none
      | some (_, cs3) =>
        match litPfx "ip=".toList cs3 with
        | none => none
        | some cs4 =>
          match takeRun1 (fun c => c.isDigit || c == '.') cs4 with
          | none => none
          | some (ip, cs5) =>
            match takeRun1 isPySpace cs5 with
            | none => none
            | some (_, cs6) =>
              match litPfx "pt=".toList cs6 with
              | none => none
              | some cs7 =>
                match takeRun1 Char.isDigit cs7 with
                | none => none
                | some (pt, cs8) =>
                  match litPfx ">".toList cs8 with
                  | none => none
                  | some _ => some (String.mk sn, String.mk ip, String.mk pt)

/-- Modelled from the spec: match of the spec's autoconnect pattern
`<sn=(\S+) ip=(\d+\.\d+\.\d+\.\d+) pt=(\d+)>` anchored at the head of
the list. -/
def specMatchAt (cs : List Char) : Option (String × String × String) :=
  match litPfx "<sn=".toList cs with
  | none => none
  | some cs1 =>
    match takeRun1 (fun c => !isPySpace c) cs1 with
    | none => none
    | some (sn, cs2) =>
      match litPfx " ip=".toList cs2 with
      | none => none
      | some cs3 =>
        match takeRun1 Char.isDigit cs3 with
        | none => none
        | some (d1, cs4) =>
          match litPfx ".".toList cs4 with
          | none => none
          | some cs5 =>
            match takeRun1 Char.isDigit cs5 with
            | none => none
            | some (d2, cs6) =>
              match litPfx ".".toList cs6 with
              | none => none
              | some cs7 =>
                match takeRun1 Char.isDigit cs7 with
                | none => none
                | some (d3, cs8) =>
                  match litPfx ".".toList cs8 with
                  | none => none
                  | some cs9 =>
                    match takeRun1 Char.isDigit cs9 with
                    | none => none
                    | some (d4, cs10) =>
                      match litPfx " pt=".toList cs10 with
                      | none => none
                      | some cs11 =>
                        match takeRun1 Char.isDigit cs11 with
                        | none => none
                        | some (pt, cs12) =>
                          match litPfx ">".toList cs12 with
                          | none => none
                          | some _ =>
                            some (String.mk sn,
                              String.mk (d1 ++ '.' :: d2 ++ '.' :: d3 ++ '.' :: d4),
                              String.mk pt)

/-- Leftmost match of the implementation pattern, `re.search`. -/
def searchSrc : List Char → Option (String × String × String)
  | [] => srcMatchAt []
  | c :: t =>
    match srcMatchAt (c :: t) with
    | some g => some g
    | none => searchSrc t

/-- Modelled from the spec: leftmost match of the spec's pattern. -/
def searchSpecPattern : List Char → Option (String × String × String)
  | [] => specMatchAt []
  | c :: t =>
    match specMatchAt (c :: t) with
    | some g => some g
    | none => searchSpecPattern t

/-- Shallow embedding of `MessageProcessor._is_autoconnect` on the decoded
text of the inbound buffer: the autoconnect event fields — serial number,
IP string and port (`int(port_str)` on the captured digit run).  When
this yields `some`, `process_message` invokes the autoconnect callback
exactly once with these fields and returns no response; when `none`, the
message is not treated as autoconnect. -/
def autoconnectEvent? (text : String) : Option (String × String × Nat) :=
  match searchSrc text.toList with
  | none => none
  | some (sn, ip, pt) => some (sn, ip, decDigitsVal pt.toList)


/-! ## Sample notification trees used by the concrete instantiations -/

/-- A one-field OBIS entry structure. -/
def obisStruct (hex : String) : Elem :=
  Elem.node "Structure" none (some "1") none [Elem.node "OctetString" (some hex) none none []]

/-- OBIS array with three entries (the third left verbatim, not 12 hex
characters). -/
def sampleObisArray : Elem :=
  Elem.node "Array" none (some "3") none
    [obisStruct "0000190900FF", obisStruct "0000600100FF", obisStruct "ABCD"]

/-- Two value elements for the first two OBIS entries beyond the header,
plus one extra trailing sibling that the extractor must ignore. -/
def sampleValueElems : List Elem :=
  [Elem.node "UInt32" (some "000004D2") none none [],
   Elem.node "OctetString" (some "48656C6C6F") none none [],
   Elem.node "UInt16" (some "1234") none none []]

/-- A flat OBIS-push notification: three OBIS entries followed by two
values and one ignored extra sibling. -/
def sampleObisXml : Elem :=
  Elem.node "DataNotification" none none none
    [Elem.node "LongInvokeIdAndPriority" (some "C000001A") none none [],
     Elem.node "NotificationBody" none none none
       [Elem.node "DataValue" none none none
         [Elem.node "Structure" none (some "4") none
           (sampleObisArray :: sampleValueElems)]]]

/-- A day-push row structure whose timestamp carries the
unspecified-deviation sentinel 0x8000 (bytes 9 and 10). -/
def sampleSentinelRow : Elem :=
  Elem.node "Structure" none (some "2") none
    [Elem.node "OctetString" (some "07EA010DFF0E2114FF800000") none none [],
     Elem.node "UInt32" (some "000004D2") none none []]

/-- A half-hourly row with four values. -/
def halfHourRow (ts : String) : DayRow :=
  ⟨ts, [1, 2, 3, 4]⟩

/-- Four rows spaced exactly 30 minutes apart. -/
def sampleHalfHourEntry : DayEntry :=
  ⟨[halfHourRow "2026-01-13T10:00:00+03:00", halfHourRow "2026-01-13T10:30:00+03:00",
    halfHourRow "2026-01-13T11:00:00+03:00", halfHourRow "2026-01-13T11:30:00+03:00"]⟩

/-- The same four rows with the last one shifted by one second. -/
def sampleHalfHourEntryShifted : DayEntry :=
  ⟨[halfHourRow "2026-01-13T10:00:00+03:00", halfHourRow "2026-01-13T10:30:00+03:00",
    halfHourRow "2026-01-13T11:00:00+03:00", halfHourRow "2026-01-13T11:30:01+03:00"]⟩

/-! ## Theorems -/

theorem fcsInnerStep_eq_specFcsStep (c : Nat) : fcsInnerStep c = specFcsStep c := by
  unfold fcsInnerStep specFcsStep
  have hmask : ∀ m : Nat, m &&& 0xFFFF = m % 0x10000 := by
    intro m
    simpa using Nat.and_pow_two_sub_one_eq_mod m 16
  have hshift : ∀ m : Nat, m <<< 1 = m * 2 := by
    intro m; rw [Nat.shiftLeft_eq, pow_one]
  have h1 : c &&& 0x8000 = (c.testBit 15).toNat * 2 ^ 15 := Nat.and_two_pow c 15
  have h2 : c.testBit 15 = true ↔ c / 0x8000 % 2 = 1 := by
    rw [Nat.testBit_to_div_mod]
    norm_num
  have hcond : (c &&& 0x8000 ≠ 0) ↔ (c / 0x8000 % 2 = 1) := by
    constructor
    · intro h
      cases hb : c.testBit 15 with
      | false => rw [h1, hb] at h; simp at h
      | true => exact h2.mp hb
    · intro h
      rw [h1, h2.mpr h]
      norm_num
  rw [hmask, hmask, hshift]
  by_cases h : c / 0x8000 % 2 = 1
  · rw [if_pos (hcond.mpr h), if_pos h]
  · rw [if_neg (fun hc => h (hcond.mp hc)), if_neg h]

theorem specFcsRounds_comm (n c : Nat) :
    specFcsRounds n (specFcsStep c) = specFcsStep (specFcsRounds n c) := by
  induction n generalizing c with
  | zero => rfl
  | succ n ih => simp only [specFcsRounds, ih]

theorem range_foldl_eq_specFcsRounds (n c : Nat) :
    (List.range n).foldl (fun c _ => fcsInnerStep c) c = specFcsRounds n c := by
  induction n generalizing c with
  | zero => rfl
  | succ n ih =>
    rw [List.range_succ, List.foldl_append]
    simp only [List.foldl_cons, List.foldl_nil, ih]
    rw [fcsInnerStep_eq_specFcsStep, ← specFcsRounds_comm]
    rfl

theorem calculate_fcs_eq_computeFCS_aux (data : List Nat) :
    ∀ crc, data.foldl
      (fun crc byte => (List.range 8).foldl (fun c _ => fcsInnerStep c) (crc ^^^ (byte <<< 8)))
      crc = computeFCSAux crc data := by
  induction data with
  | nil => intro crc; rfl
  | cons b rest ih =>
    intro crc
    rw [List.foldl_cons, ih, range_foldl_eq_specFcsRounds]
    rfl


/-- C1 (amended): for every 5-byte address field and every invoke-id hex
string decoding to 4 bytes, `_generate_response` returns exactly the frame
of the claim's enumerated layout — flags, control 0xA0, the length byte
`len(addressField) + len(informationField) + 6`, FCS1 over
`0xA0 ++ length ++ addressField ++ 0x13`, the LLC header, the PDU body
whose clock field after the 0x0C tag is the thirteen listed bytes
`year_hi year_lo month day 0xFF hour minute second 0xFF 0xFF 0x4C 0x00
0x00`, and FCS2 over everything between the flags before itself. -/
theorem c1_ack_frame_layout (addr : List Nat) (s : String) (inv : List Nat) (now : Now)
    (ha : addr.length = 5) (hs : fromhexChars? s.toList = some inv) (hi : inv.length = 4) :
    generate_response addr s now = some (specAckFrame addr inv now) := by
  unfold generate_response
  rw [hs]
  have hlen : (addr ++ (0x13 :: 0xE6 :: 0xE7 :: 0x00
      :: (0x10 :: (inv ++ 0x0C :: dlmsAckDatetimeBytes now)))).length + 6 = 34 := by
    simp [List.length_append, ha, hi, dlmsAckDatetimeBytes]
  have hlen2 : specAckLen addr inv now = 34 := by
    simp [specAckLen, specAckInfo, specAckPdu, ha, hi, dlmsAckDatetimeBytes]
  simp only [hlen]
  rw [if_pos (by norm_num)]
  simp only [specAckFrame, specAckFcs2, specAckFcs1, specAckPdu, hlen2]
  simp [List.append_assoc]

/-- C1 witness: the acknowledgment frame for address field
`00 02 00 63 21`, invoke-id hex "0000001A" and clock
2026-01-13 14:33:20, via `c1_ack_frame_layout`. -/
theorem c1_ack_frame_layout_witness :
    generate_response [0, 2, 0, 99, 33] "0000001A" ⟨2026, 1, 13, 14, 33, 20⟩ =
      some [0x7E, 0xA0, 0x22, 0x00, 0x02, 0x00, 0x63, 0x21, 0x13, 0x28, 0xFF,
            0xE6, 0xE7, 0x00, 0x10, 0x00, 0x00, 0x00, 0x1A, 0x0C, 0x07, 0xEA,
            0x01, 0x0D, 0xFF, 0x0E, 0x21, 0x14, 0xFF, 0xFF, 0x4C, 0x00, 0x00,
            0x6D, 0x90, 0x7E] :=
  (c1_ack_frame_layout [0, 2, 0, 99, 33] "0000001A" [0, 0, 0, 26]
      ⟨2026, 1, 13, 14, 33, 20⟩ (by decide) (by decide) (by decide)).trans (by decide)

/-- C1 counterexample: the claim calls the clock field after the 0x0C tag
"12 bytes" while enumerating thirteen bytes.  With a 12-byte clock field
the frame for a 5-byte address field and 4 invoke-id bytes would be
35 bytes (1+1+1+5+1+2+3+(1+4+1+12)+2+1); the generated frame has 36,
because the clock field really is the thirteen enumerated bytes. -/
theorem c1_clock_field_counterexample :
    (generate_response [0, 2, 0, 99, 33] "0000001A" ⟨2026, 1, 13, 14, 33, 20⟩).map
        List.length = some 36 ∧
      (generate_response [0, 2, 0, 99, 33] "0000001A" ⟨2026, 1, 13, 14, 33, 20⟩).map
        List.length ≠ some 35 := by
  decide

/-- C2 counterexample: the fallback loop of `calculate_fcs` does not match
the reference CRC-16/X.25 already on the single byte 0x00: the loop gives
0xE1F0 (the CRC-16/CCITT-FALSE value), the X.25 reference gives 0xF078. -/
theorem c2_fallback_differs_from_x25_counterexample :
    calculate_fcs [0x00] = 0xE1F0 ∧ crc16_x25 [0x00] = 0xF078 ∧
      calculate_fcs [0x00] ≠ crc16_x25 [0x00] := by
  decide

/-- C2 (amended): the fallback loop in `calculate_fcs` is pure and
deterministic and computes exactly the algorithm the spec describes in
section 4.1 (initial register 0xFFFF, XOR into the high byte, eight
shift-left rounds with polynomial 0x1021 masked to 16 bits) — which is
CRC-16/CCITT-FALSE, with check value 0x29B1 on "123456789" — whereas the
reference CRC-16/X.25 has check value 0x906E there; the two therefore do
not agree on all inputs. -/
theorem c2_fallback_is_spec_loop_not_x25 :
    (∀ data : List Nat, calculate_fcs data = computeFCS data) ∧
      calculate_fcs [0x31, 0x32, 0x33, 0x34, 0x35, 0x36, 0x37, 0x38, 0x39] = 0x29B1 ∧
      crc16_x25 [0x31, 0x32, 0x33, 0x34, 0x35, 0x36, 0x37, 0x38, 0x39] = 0x906E :=
  ⟨fun data => calculate_fcs_eq_computeFCS_aux data 0xFFFF, by decide, by decide⟩

theorem hexDigitVal_lt16 (c : Char) (d : Nat) (h : hexDigitVal? c = some d) : d < 16 := by
  unfold hexDigitVal? at h
  have h0 : '0'.toNat = 48 := rfl
  have h9 : '9'.toNat = 57 := rfl
  have ha : 'a'.toNat = 97 := rfl
  have hf : 'f'.toNat = 102 := rfl
  have hA : 'A'.toNat = 65 := rfl
  have hF : 'F'.toNat = 70 := rfl
  split at h
  · rename_i hc
    cases h
    omega
  · split at h
    · rename_i hc
      cases h
      omega
    · split at h
      · rename_i hc
        cases h
        omega
      · cases h

theorem unhexlifyChars_length : ∀ (cs : List Char) (bs : List Nat),
    unhexlifyChars? cs = some bs → 2 * bs.length = cs.length
  | [], bs, h => by
    simp only [unhexlifyChars?] at h
    cases h
    rfl
  | [c], bs, h => by
    simp only [unhexlifyChars?] at h
    cases h
  | c1 :: c2 :: rest, bs, h => by
    simp only [unhexlifyChars?] at h
    cases h1 : hexDigitVal? c1 with
    | none => rw [h1] at h; cases h
    | some hv =>
      cases h2 : hexDigitVal? c2 with
      | none => rw [h1, h2] at h; cases h
      | some lv =>
        cases h3 : unhexlifyChars? rest with
        | none => rw [h1, h2, h3] at h; cases h
        | some tail =>
          rw [h1, h2, h3] at h
          cases h
          have := unhexlifyChars_length rest tail h3
          simp only [List.length_cons]
          omega

theorem unhexlifyChars_lt256 : ∀ (cs : List Char) (bs : List Nat),
    unhexlifyChars? cs = some bs → ∀ b ∈ bs, b < 256
  | [], bs, h => by
    simp only [unhexlifyChars?] at h
    cases h
    intro b hb
    cases hb
  | [c], bs, h => by
    simp only [unhexlifyChars?] at h
    cases h
  | c1 :: c2 :: rest, bs, h => by
    simp only [unhexlifyChars?] at h
    cases h1 : hexDigitVal? c1 with
    | none => rw [h1] at h; cases h
    | some hv =>
      cases h2 : hexDigitVal? c2 with
      | none => rw [h1, h2] at h; cases h
      | some lv =>
        cases h3 : unhexlifyChars? rest with
        | none => rw [h1, h2, h3] at h; cases h
        | some tail =>
          rw [h1, h2, h3] at h
          cases h
          intro b hb
          cases hb with
          | head =>
            have hu := hexDigitVal_lt16 c1 hv h1
            have hl := hexDigitVal_lt16 c2 lv h2
            omega
          | tail _ hmem => exact unhexlifyChars_lt256 rest tail h3 b hmem

theorem fromhexChars_lt256 : ∀ (cs : List Char) (bs : List Nat),
    fromhexChars? cs = some bs → ∀ b ∈ bs, b < 256
  | [], bs, h => by
    simp only [fromhexChars?] at h
    cases h
    intro b hb
    cases hb
  | c1 :: rest1, bs, h => by
    rw [fromhexChars?.eq_def] at h
    simp only [] at h
    by_cases hsp : c1 = ' '
    · rw [if_pos hsp] at h
      exact fromhexChars_lt256 rest1 bs h
    · rw [if_neg hsp] at h
      cases rest1 with
      | nil =>
        simp only [] at h
        cases h
      | cons c2 rest =>
        simp only [] at h
        cases h1 : hexDigitVal? c1 with
        | none => rw [h1] at h; cases h
        | some hv =>
          cases h2 : hexDigitVal? c2 with
          | none => rw [h1, h2] at h; cases h
          | some lv =>
            cases h3 : fromhexChars? rest with
            | none => rw [h1, h2, h3] at h; cases h
            | some tail =>
              rw [h1, h2, h3] at h
              cases h
              intro b hb
              cases hb with
              | head =>
                have hu := hexDigitVal_lt16 c1 hv h1
                have hl := hexDigitVal_lt16 c2 lv h2
                omega
              | tail _ hmem => exact fromhexChars_lt256 rest tail h3 b hmem

theorem parseHexNat_foldl_some (l : List Char) (hl : ∀ c ∈ l, (hexDigitVal? c).isSome = true) :
    ∀ a : Nat, (l.foldl
      (fun acc c =>
        match acc, hexDigitVal? c with
        | some a, some d => some (a * 16 + d)
        | _, _ => none)
      (some a)).isSome = true := by
  induction l with
  | nil => intro a; rfl
  | cons c t ih =>
    intro a
    have hc := hl c (List.mem_cons_self c t)
    cases hx : hexDigitVal? c with
    | none => rw [hx] at hc; cases hc
    | some d =>
      simp only [List.foldl_cons, hx]
      exact ih (fun c hm => hl c (List.mem_cons_of_mem _ hm)) (a * 16 + d)

theorem parseHexNat_isSome (s : String) (hne : s.toList ≠ [])
    (hl : ∀ c ∈ s.toList, (hexDigitVal? c).isSome = true) :
    (parseHexNat? s).isSome = true := by
  unfold parseHexNat?
  have hs : ¬ s.isEmpty = true := by
    intro hemp
    rw [String.isEmpty_iff] at hemp
    apply hne
    rw [hemp]
    rfl
  rw [if_neg hs]
  exact parseHexNat_foldl_some s.toList hl 0

theorem cleanHexUpper_chars (s : String) :
    ∀ c ∈ (cleanHexUpper s).toList, (hexDigitVal? c).isSome = true := by
  intro c hc
  unfold cleanHexUpper at hc
  have hp : "0123456789ABCDEF".toList.contains c = true := List.of_mem_filter hc
  have hmem : c ∈ "0123456789ABCDEF".toList := by
    simpa using hp
  fin_cases hmem <;> rfl

/-- C6 (amended): `hex_to_obis` returns its input unchanged on every string
whose length differs from 12 (the deliberate passthrough), and converts
every 12-character hexadecimal string to the dotted decimal form
`b0.b1.b2.b3.b4.b5` with each component below 256; on 12-character strings
that are not valid hex it raises a `ValueError` (see the counterexample),
so the claim's never-raises clause fails. -/
theorem c6_hex_to_obis_passthrough_and_dotted (s : String) :
    (s.length ≠ 12 → hex_to_obis s = some s) ∧
    (∀ parts, s.length = 12 → unhexlifyChars? s.toList = some parts →
      hex_to_obis s = some (String.intercalate "." (parts.map toString)) ∧
      parts.length = 6 ∧ ∀ p ∈ parts, p < 256) := by
  constructor
  · intro h
    unfold hex_to_obis
    rw [if_pos h]
  · intro parts h12 hparse
    unfold hex_to_obis
    rw [if_neg (fun hc => hc h12), hparse]
    refine ⟨rfl, ?_, unhexlifyChars_lt256 s.toList parts hparse⟩
    have hlen := unhexlifyChars_length s.toList parts hparse
    have hsl : s.toList.length = s.length := rfl
    omega

/-- C6 witness: the known OBIS code `0000190900FF` converts to
`0.0.25.9.0.255`, and a length-3 input passes through unchanged, via
`c6_hex_to_obis_passthrough_and_dotted`. -/
theorem c6_hex_to_obis_witness :
    hex_to_obis "0000190900FF" = some "0.0.25.9.0.255" ∧ hex_to_obis "ABC" = some "ABC" := by
  constructor
  · exact (((c6_hex_to_obis_passthrough_and_dotted "0000190900FF").2
      [0, 0, 25, 9, 0, 255] (by decide) (by decide)).1).trans (by decide)
  · exact (c6_hex_to_obis_passthrough_and_dotted "ABC").1 (by decide)

/-- C6 counterexample: on the 12-character non-hex input `0000190900FG`
`hex_to_obis` raises a `ValueError` (modelled as `none`) instead of
returning a value, contradicting the claim that it never raises on any
input. -/
theorem c6_nonhex_raises_counterexample :
    hex_to_obis "0000190900FG" = none ∧ ("0000190900FG" : String).length = 12 := by
  decide

/-- C8: for every `LongInvokeIdAndPriority` value with at least 8 hex
characters after stripping non-hex characters, the decoder maps high byte
0x40 to normal priority / confirmed service, 0x80 to high priority /
non-confirmed service, 0xC0 to high priority / confirmed service, and
anything else to an unknown service type, and interprets the characters
after the high byte (6 hex characters for the 8-character field) as the
invoke-id, an unsigned integer. -/
theorem c8_invoke_priority_decoding (value : String)
    (h8 : (cleanHexUpper value).toList.length ≥ 8) :
    ∃ p c i, decode_long_invoke value = some (p, c, i) ∧
      i = parseHexNat? (String.mk ((cleanHexUpper value).toList.drop 2)) ∧
      i.isSome = true ∧
      (String.mk ((cleanHexUpper value).toList.take 2) = "40" →
        p = "Normal priority." ∧ c = "Confirmed service.") ∧
      (String.mk ((cleanHexUpper value).toList.take 2) = "80" →
        p = "High priority." ∧ c = "Non-confirmed service.") ∧
      (String.mk ((cleanHexUpper value).toList.take 2) = "C0" →
        p = "High priority." ∧ c = "Confirmed service.") ∧
      (¬(String.mk ((cleanHexUpper value).toList.take 2) = "40" ∨
          String.mk ((cleanHexUpper value).toList.take 2) = "80" ∨
          String.mk ((cleanHexUpper value).toList.take 2) = "C0") →
        c = "Service type unknown.") ∧
      ((cleanHexUpper value).toList.length = 8 →
        ((cleanHexUpper value).toList.drop 2).length = 6) := by
  have hne : (cleanHexUpper value).toList ≠ [] := by
    intro hc
    rw [hc] at h8
    simp at h8
  have hiSome : (parseHexNat? (String.mk ((cleanHexUpper value).toList.drop 2))).isSome = true := by
    apply parseHexNat_isSome
    · intro hc
      have hlen : ((cleanHexUpper value).toList.drop 2).length =
          (cleanHexUpper value).toList.length - 2 := List.length_drop 2 _
      rw [show (String.mk ((cleanHexUpper value).toList.drop 2)).toList =
        (cleanHexUpper value).toList.drop 2 from rfl] at hc
      rw [hc] at hlen
      simp only [List.length_nil] at hlen
      omega
    · intro c hc
      rw [show (String.mk ((cleanHexUpper value).toList.drop 2)).toList =
        (cleanHexUpper value).toList.drop 2 from rfl] at hc
      exact cleanHexUpper_chars value c (List.mem_of_mem_drop hc)
  have hdrop : (cleanHexUpper value).toList.length = 8 →
      ((cleanHexUpper value).toList.drop 2).length = 6 := by
    intro h
    rw [List.length_drop, h]
  simp only [decode_long_invoke]
  rw [if_pos ⟨hne, h8⟩]
  by_cases hb1 : String.mk ((cleanHexUpper value).toList.take 2) = "40"
  · rw [if_pos hb1]
    exact ⟨_, _, _, rfl, rfl, hiSome, fun _ => ⟨rfl, rfl⟩,
      fun h => absurd (hb1.symm.trans h) (by decide),
      fun h => absurd (hb1.symm.trans h) (by decide),
      fun h => absurd (Or.inl hb1) h, hdrop⟩
  · rw [if_neg hb1]
    by_cases hb2 : String.mk ((cleanHexUpper value).toList.take 2) = "80"
    · rw [if_pos hb2]
      exact ⟨_, _, _, rfl, rfl, hiSome,
        fun h => absurd (hb2.symm.trans h) (by decide),
        fun _ => ⟨rfl, rfl⟩,
        fun h => absurd (hb2.symm.trans h) (by decide),
        fun h => absurd (Or.inr (Or.inl hb2)) h, hdrop⟩
    · rw [if_neg hb2]
      by_cases hb3 : String.mk ((cleanHexUpper value).toList.take 2) = "C0"
      · rw [if_pos hb3]
        exact ⟨_, _, _, rfl, rfl, hiSome,
          fun h => absurd (hb3.symm.trans h) (by decide),
          fun h => absurd (hb3.symm.trans h) (by decide),
          fun _ => ⟨rfl, rfl⟩,
          fun h => absurd (Or.inr (Or.inr hb3)) h, hdrop⟩
      · rw [if_neg hb3]
        exact ⟨_, _, _, rfl, rfl, hiSome,
          fun h => absurd h hb1, fun h => absurd h hb2, fun h => absurd h hb3,
          fun _ => rfl, hdrop⟩

/-- C8 witness: the value "C000001A" decodes to high priority, confirmed
service and invoke-id 26, via `c8_invoke_priority_decoding`. -/
theorem c8_invoke_priority_decoding_witness :
    decode_long_invoke "C000001A" =
      some ("High priority.", "Confirmed service.", some 26) := by
  obtain ⟨p, c, i, hd, hi, _, _, _, hC0, _, _⟩ :=
    c8_invoke_priority_decoding "C000001A" (by decide)
  obtain ⟨hp, hc⟩ := hC0 (by decide)
  have h26 : parseHexNat? (String.mk ((cleanHexUpper "C000001A").toList.drop 2)) = some 26 := by
    decide
  rw [hd, hp, hc, hi, h26]

theorem utcSuffixed_comm (data : List Nat) (base : String) :
    (if data.length ≥ 11 then
       let devRaw := (data.getD 9 0) <<< 8 ||| data.getD 10 0
       if devRaw ≠ 0x8000 then
         let devSigned : Int :=
           if devRaw > 32767 then (devRaw : Int) - 65536 else (devRaw : Int)
         if devSigned ≠ 0 then
           let sign := if devSigned ≥ 0 then "+" else "-"
           let totalMin := devSigned.natAbs
           if totalMin % 60 = 0 then some (base ++ " UTC" ++ sign ++ padNum 2 (totalMin / 60))
           else some (base ++ " UTC" ++ sign ++ padNum 2 (totalMin / 60) ++ ":" ++
             padNum 2 (totalMin % 60))
         else some base
       else some base
     else some base) = some (utcSuffixed data base) := by
  unfold utcSuffixed
  simp only []
  split_ifs <;> rfl

/-- C5: `try_decode_dlms_datetime` returns None for every hex string of
odd length, length below 10 or above 24 characters, and for every
in-range hex string whose decoded bytes specify neither a full date nor a
full time; otherwise it returns the date part and/or time part,
space-joined, each included only when fully specified, with a UTC offset
suffix (sign "+" for positive signed minutes, "-" for negative) when at
least 11 bytes are present and the big-endian deviation word is neither
0x8000 nor zero. -/
theorem c5_try_dlms_datetime (s : String) :
    ((s.length < 10 ∨ 24 < s.length ∨ s.length % 2 = 1) →
      try_decode_dlms_datetime s = none) ∧
    (∀ data, 10 ≤ s.length → s.length ≤ 24 → s.length % 2 = 0 →
      unhexlifyChars? s.toList = some data →
      ((dlmsHasDate data || dlmsHasTime data) = false →
        try_decode_dlms_datetime s = none) ∧
      ((dlmsHasDate data || dlmsHasTime data) = true →
        try_decode_dlms_datetime s = some (dlmsRender data))) := by
  constructor
  · intro h
    unfold try_decode_dlms_datetime
    rw [if_pos (by omega)]
  · intro data h10 h24 heven hparse
    have hlen := unhexlifyChars_length s.toList data hparse
    have hsl : s.toList.length = s.length := rfl
    have h5 : ¬ data.length < 5 := by omega
    unfold try_decode_dlms_datetime
    rw [if_neg (by omega), hparse]
    simp only []
    rw [if_neg h5]
    constructor
    · intro hfalse
      unfold dlmsHasDate dlmsHasTime at hfalse
      rw [hfalse]
      rfl
    · intro htrue
      unfold dlmsHasDate dlmsHasTime at htrue
      rw [htrue]
      rw [if_neg (by simp)]
      exact utcSuffixed_comm data _

/-- C5 witness: the 12-byte hex input with date 2026-01-13, time 14:33:20
and deviation word 0xFF4C (-180 minutes, two's complement) renders as
"2026-01-13 14:33:20 UTC-03", via `c5_try_dlms_datetime`. -/
theorem c5_try_dlms_datetime_witness :
    try_decode_dlms_datetime "07EA010DFF0E2114FFFF4C00" =
      some "2026-01-13 14:33:20 UTC-03" := by
  have h := ((c5_try_dlms_datetime "07EA010DFF0E2114FFFF4C00").2
    [0x07, 0xEA, 0x01, 0x0D, 0xFF, 0x0E, 0x21, 0x14, 0xFF, 0xFF, 0x4C, 0x00]
    (by decide) (by decide) (by decide) (by decide)).2 (by decide)
  exact h.trans (by decide)

/-- C4: `is_new_style_push` returns true exactly when the first
`Structure` node reachable inside the NotificationBody/DataValue subtree
exists, its first child is an `OctetString`, and that child's hex value
has length different from 12; in every other case it returns false and
`parse_dlms_push_xml` routes the message to the OBIS-push path. -/
theorem c4_day_push_classification (root : Elem) :
    (is_new_style_push root = true ↔
      ∃ dv st first rest,
        findDesc2 root "NotificationBody" "DataValue" = some dv ∧
        (dv.iterAll.filter (fun e => e.tag == "Structure")).head? = some st ∧
        st.children = first :: rest ∧ first.tag = "OctetString" ∧
        (first.value.getD "").length ≠ 12) ∧
    (is_new_style_push root = false →
      parse_dlms_push_xml root =
        .ok (.obisPush (extract_obis_values_and_invoke_id root))) := by
  constructor
  · constructor
    · intro h
      unfold is_new_style_push at h
      cases hdv : findDesc2 root "NotificationBody" "DataValue" with
      | none => rw [hdv] at h; cases h
      | some dv =>
        rw [hdv] at h
        simp only [] at h
        cases hst : (dv.iterAll.filter (fun e => e.tag == "Structure")).head? with
        | none => rw [hst] at h; cases h
        | some st =>
          rw [hst] at h
          simp only [] at h
          cases hch : st.children with
          | nil => rw [hch] at h; cases h
          | cons first rest =>
            rw [hch] at h
            simp only [] at h
            split at h
            · cases h
            · rename_i hcond
              refine ⟨dv, st, first, rest, rfl, hst, hch, ?_, ?_⟩
              · simpa using hcond
              · simpa using h
    · rintro ⟨dv, st, first, rest, hdv, hst, hch, htag, hlen⟩
      unfold is_new_style_push
      rw [hdv]
      simp only []
      rw [hst]
      simp only []
      rw [hch]
      simp only []
      rw [if_neg (by simp [htag])]
      simpa using hlen
  · intro h
    unfold parse_dlms_push_xml
    rw [h]
    rfl

theorem assembleRecords_length (es : List ObisEntry) (vs : List PVal) :
    (assembleRecords es vs).length = es.length := by
  unfold assembleRecords
  rw [List.length_map, List.enum_length]

theorem assembleRecords_getD (es : List ObisEntry) (vs : List PVal) (i : Nat)
    (h : i < es.length) (d : ObisRecord) :
    ((assembleRecords es vs).getD i d).value =
      if i = 0 then PVal.emptyVal "" else vs.getD (i - 1) (PVal.missingVal "[missing]") := by
  unfold assembleRecords
  rw [List.getD_eq_getElem?_getD, List.getElem?_map]
  have he : es.enum[i]? = some (i, es[i]) := by
    simp [List.getElem?_enum, List.getElem?_eq_getElem h]
  rw [he]
  rfl

theorem take_map_getD (l : List Elem) (k m : Nat) (hkm : k < m) (d : PVal) :
    ((l.take m).map parseXmlValue).getD k d =
      if k < l.length then parseXmlValue (l.getD k (Elem.node "" none none none [])) else d := by
  rw [List.getD_eq_getElem?_getD, List.getElem?_map]
  by_cases hk : k < l.length
  · rw [if_pos hk]
    have ht : (l.take m)[k]? = some l[k] := by
      simp [List.getElem?_take, hkm, List.getElem?_eq_getElem hk]
    rw [ht, List.getD_eq_getElem?_getD, List.getElem?_eq_getElem hk]
    rfl
  · rw [if_neg hk]
    have ht : (l.take m)[k]? = none := by
      apply List.getElem?_eq_none
      rw [List.length_take]
      omega
    rw [ht]
    rfl

/-- C3: for every notification in which the OBIS array is found with `n`
entries, the extractor decodes exactly `max(0, n - 1)` of the sibling
elements following the array inside the same parent structure, in order,
as the values (further siblings are ignored), and assembles records with
record 0 carrying the Empty sentinel and record `i` (`i ≥ 1`) carrying
decoded sibling `i - 1`, or the Missing sentinel when there are fewer
siblings. -/
theorem c3_obis_record_assembly (root arr : Elem) (after : List Elem)
    (hfind : findObisArrayCtx root = some (arr, after)) :
    (extract_obis_values_and_invoke_id root).records.length =
      ((arr.children.filter (fun c => c.tag == "Structure")).filterMap obisEntryOf?).length ∧
    ∀ i, i < ((arr.children.filter (fun c => c.tag == "Structure")).filterMap obisEntryOf?).length →
      ((extract_obis_values_and_invoke_id root).records.getD i
          ⟨"", PVal.emptyVal "", ""⟩).value =
        (if i = 0 then PVal.emptyVal ""
         else if i - 1 < after.length then
           parseXmlValue (after.getD (i - 1) (Elem.node "" none none none []))
         else PVal.missingVal "[missing]") := by
  have hout : extract_obis_values_and_invoke_id root =
      ⟨extractInvokeId root,
       assembleRecords
         ((arr.children.filter (fun c => c.tag == "Structure")).filterMap obisEntryOf?)
         ((after.take
            (((arr.children.filter (fun c => c.tag == "Structure")).filterMap
              obisEntryOf?).length - 1)).map parseXmlValue)⟩ := by
    unfold extract_obis_values_and_invoke_id
    rw [hfind]
  rw [hout]
  constructor
  · exact assembleRecords_length _ _
  · intro i hi
    rw [assembleRecords_getD _ _ i hi]
    by_cases hi0 : i = 0
    · rw [if_pos hi0, if_pos hi0]
    · rw [if_neg hi0, if_neg hi0]
      exact take_map_getD after (i - 1) _ (by omega) _

/-- C3 witness: on the sample notification with 3 OBIS entries and 2
following value elements (plus one ignored extra sibling), record 0 is
Empty and records 1 and 2 carry the two decoded elements in order, via
`c3_obis_record_assembly`. -/
theorem c3_obis_record_assembly_witness :
    findObisArrayCtx sampleObisXml = some (sampleObisArray, sampleValueElems) ∧
    (extract_obis_values_and_invoke_id sampleObisXml).records.length = 3 ∧
    ((extract_obis_values_and_invoke_id sampleObisXml).records.getD 0
      ⟨"", PVal.emptyVal "", ""⟩).value = PVal.emptyVal "" ∧
    ((extract_obis_values_and_invoke_id sampleObisXml).records.getD 1
      ⟨"", PVal.emptyVal "", ""⟩).value = PVal.uint32 "000004D2" (some "1234") ∧
    ((extract_obis_values_and_invoke_id sampleObisXml).records.getD 2
      ⟨"", PVal.emptyVal "", ""⟩).value = PVal.octetString "48656C6C6F" none (some "Hello") := by
  have hfind : findObisArrayCtx sampleObisXml = some (sampleObisArray, sampleValueElems) := rfl
  obtain ⟨hlen, hval⟩ := c3_obis_record_assembly sampleObisXml sampleObisArray
    sampleValueElems hfind
  refine ⟨hfind, hlen.trans (by rfl), ?_, ?_, ?_⟩
  · exact (hval 0 (by decide)).trans (by rfl)
  · exact (hval 1 (by decide)).trans (by rfl)
  · exact (hval 2 (by decide)).trans (by rfl)

/-- C4 witness: the sample OBIS-push notification is classified as not
new-style (its first structure's first child is an Array) and
`parse_dlms_push_xml` routes it to the OBIS-push extractor, via
`c4_day_push_classification`. -/
theorem c4_day_push_classification_witness :
    is_new_style_push sampleObisXml = false ∧
    parse_dlms_push_xml sampleObisXml =
      .ok (.obisPush (extract_obis_values_and_invoke_id sampleObisXml)) :=
  ⟨rfl, (c4_day_push_classification sampleObisXml).2 rfl⟩

theorem parse_dlms_datetime_ok_shape (hex iso : String)
    (h : parse_dlms_datetime hex = .ok iso) :
    ∃ b, fromhexChars? hex.toList = some b ∧ 12 ≤ b.length := by
  unfold parse_dlms_datetime at h
  cases hb : fromhexChars? hex.toList with
  | none => rw [hb] at h; cases h
  | some b =>
    rw [hb] at h
    simp only [] at h
    by_cases hl : b.length < 12
    · rw [if_pos hl] at h; cases h
    · exact ⟨b, rfl, by omega⟩

theorem getD_lt256 (b : List Nat) (hbb : ∀ x ∈ b, x < 256) (k : Nat) :
    b.getD k 0 < 256 := by
  rw [List.getD_eq_getElem?_getD]
  cases hk : b[k]? with
  | none => simp
  | some x =>
    simp only [Option.getD_some]
    obtain ⟨hlt, rfl⟩ := List.getElem?_eq_some.1 hk
    exact hbb _ (List.getElem_mem hlt)

/-- C10: the deviation word of `_parse_dlms_datetime` is read as a signed
16-bit integer, so it can never equal 0x8000 and the `timezone.utc`
branch is unreachable dead code (the parse equals its guard-free
variant); a row enters the day-push output only if its first child is an
`OctetString` whose value decodes to at least 12 bytes and parses to a
valid aware datetime; and a row carrying the 0x8000 sentinel is read as
-32768 minutes, fails timezone construction and is silently skipped. -/
theorem c10_deviation_guard_dead_code :
    (∀ hi lo : Nat, hi < 256 → lo < 256 → toSigned16 hi lo ≠ 32768) ∧
    (∀ hex_str : String, parse_dlms_datetime hex_str = parse_dlms_datetime_noUtcBranch hex_str) ∧
    (∀ e row, dayRowOf? e = some row →
      ∃ octet rest b, e.children = octet :: rest ∧ octet.tag = "OctetString" ∧
        fromhexChars? (octet.value.getD "").toList = some b ∧ 12 ≤ b.length ∧
        parse_dlms_datetime (octet.value.getD "") = .ok row.timestamp) ∧
    (∀ e octet rest b, e.children = octet :: rest → octet.tag = "OctetString" →
      fromhexChars? (octet.value.getD "").toList = some b → 12 ≤ b.length →
      b.getD 9 0 = 0x80 → b.getD 10 0 = 0x00 → dayRowOf? e = none) := by
  have part1 : ∀ hi lo : Nat, hi < 256 → lo < 256 → toSigned16 hi lo ≠ 32768 := by
    intro hi lo hhi hlo
    unfold toSigned16
    simp only []
    split_ifs with h
    · intro hc
      omega
    · intro hc
      omega
  refine ⟨part1, ?_, ?_, ?_⟩
  · intro hex
    unfold parse_dlms_datetime parse_dlms_datetime_noUtcBranch
    cases hb : fromhexChars? hex.toList with
    | none => rfl
    | some b =>
      simp only []
      by_cases hlen : b.length < 12
      · rw [if_pos hlen, if_pos hlen]
      · rw [if_neg hlen, if_neg hlen]
        have hbb := fromhexChars_lt256 hex.toList b hb
        have hdev : toSigned16 (b.getD 9 0) (b.getD 10 0) ≠ 32768 :=
          part1 _ _ (getD_lt256 b hbb 9) (getD_lt256 b hbb 10)
        by_cases hR : (-1440 : Int) < toSigned16 (b.getD 9 0) (b.getD 10 0) ∧
            toSigned16 (b.getD 9 0) (b.getD 10 0) < 1440
        · rw [if_neg (fun hc => hc.2 hR), if_neg (not_not_intro hR), if_pos hdev]
        · rw [if_pos ⟨hdev, hR⟩, if_pos hR]
  · intro e row h
    unfold dayRowOf? at h
    cases hch : e.children with
    | nil => rw [hch] at h; cases h
    | cons octet rest =>
      rw [hch] at h
      simp only [] at h
      split at h
      · cases h
      · rename_i htag
        cases hp : parse_dlms_datetime (octet.value.getD "") with
        | error msg => rw [hp] at h; cases h
        | ok iso =>
          rw [hp] at h
          cases h
          obtain ⟨b, hbsome, hble⟩ := parse_dlms_datetime_ok_shape _ _ hp
          exact ⟨octet, rest, b, rfl, by simpa using htag, hbsome, hble, hp⟩
  · intro e octet rest b hch htag hbsome hble h9 h10
    have hperr : ∃ msg, parse_dlms_datetime (octet.value.getD "") = .error msg := by
      unfold parse_dlms_datetime
      rw [hbsome]
      simp only []
      rw [if_neg (by omega), h9, h10]
      have hts : toSigned16 0x80 0x00 = -32768 := by decide
      rw [hts]
      rw [if_pos (by norm_num)]
      exact ⟨_, rfl⟩
    obtain ⟨msg, hperr⟩ := hperr
    unfold dayRowOf?
    rw [hch]
    simp only []
    rw [if_neg (by simp [htag]), hperr]

/-- C10 witness: the sentinel word 0x8000 read as signed bytes 0x80 0x00
is -32768, never 32768, and the sample row carrying it is skipped, via
`c10_deviation_guard_dead_code`. -/
theorem c10_deviation_guard_dead_code_witness :
    toSigned16 0x80 0x00 ≠ 32768 ∧ dayRowOf? sampleSentinelRow = none := by
  constructor
  · exact c10_deviation_guard_dead_code.1 0x80 0x00 (by decide) (by decide)
  · exact c10_deviation_guard_dead_code.2.2.2 sampleSentinelRow
      (Elem.node "OctetString" (some "07EA010DFF0E2114FF800000") none none [])
      [Elem.node "UInt32" (some "000004D2") none none []]
      [0x07, 0xEA, 0x01, 0x0D, 0xFF, 0x0E, 0x21, 0x14, 0xFF, 0x80, 0x00, 0x00]
      rfl rfl (by decide) (by decide) (by decide) (by decide)

theorem parseTimestamps_none_of_mem : ∀ (l : List DayRow) (r : DayRow), r ∈ l →
    parseIsoAware? r.timestamp = none → parseTimestamps? l = none
  | [], r, hr, _ => by cases hr
  | a :: t, r, hr, hnone => by
    unfold parseTimestamps?
    cases hr with
    | head =>
      rw [hnone]
    | tail _ hmem =>
      cases ha : parseIsoAware? a.timestamp with
      | none => rfl
      | some v =>
        rw [parseTimestamps_none_of_mem t r hmem hnone]
  termination_by l _ _ _ => l.length

theorem all_zip_tail_iff_chain (d : Int) : ∀ (l : List Int),
    ((l.zip l.tail).all (fun p => p.2 - p.1 == d)) = true ↔
      l.Chain' (fun a b => b - a = d)
  | [] => by simp
  | [x] => by simp
  | x :: y :: t => by
    have ih := all_zip_tail_iff_chain d (y :: t)
    simp only [List.tail_cons] at ih ⊢
    rw [List.zip_cons_cons, List.all_cons, Bool.and_eq_true, List.chain'_cons]
    rw [ih]
    constructor
    · rintro ⟨h1, h2⟩
      exact ⟨by simpa using h1, h2⟩
    · rintro ⟨h1, h2⟩
      exact ⟨by simpa using h1, h2⟩

/-- C7: `classify_day_push_entry` returns "daily" exactly for a first row
of 20 values and "half_hourly" exactly for 4 (otherwise "unknown",
including the empty data list); `validate_day_push_intervals` is
trivially true below two rows, false when any timestamp fails to parse,
and otherwise true exactly when the sorted timestamps advance in exact
steps of 24 hours for "daily" and 30 minutes for "half_hourly". -/
theorem c7_day_push_classify_validate (entry : DayEntry) (profile : String)
    (_hp : profile = "daily" ∨ profile = "half_hourly") :
    (classify_day_push_entry entry = "daily" ↔
      ∃ first rest, entry.data = first :: rest ∧ first.values.length = 20) ∧
    (classify_day_push_entry entry = "half_hourly" ↔
      ∃ first rest, entry.data = first :: rest ∧ first.values.length = 4) ∧
    (entry.data.length < 2 → validate_day_push_intervals entry profile = true) ∧
    (parseTimestamps? entry.data = none → 2 ≤ entry.data.length →
      validate_day_push_intervals entry profile = false) ∧
    (∀ r, r ∈ entry.data → parseIsoAware? r.timestamp = none →
      parseTimestamps? entry.data = none) ∧
    (∀ ts, parseTimestamps? entry.data = some ts → 2 ≤ entry.data.length →
      (validate_day_push_intervals entry profile = true ↔
        (sortInts ts).Chain'
          (fun a b => b - a = if profile = "daily" then 86400 else 1800))) := by
  refine ⟨?_, ?_, ?_, ?_, ?_, ?_⟩
  · unfold classify_day_push_entry
    cases hd : entry.data with
    | nil =>
      simp only []
      constructor
      · intro h; exact absurd h (by decide)
      · rintro ⟨f, r, hc, _⟩; cases hc
    | cons f r =>
      simp only []
      constructor
      · intro h
        split_ifs at h with h20 h4
        · exact ⟨f, r, rfl, h20⟩
        · exact absurd h (by decide)
        · exact absurd h (by decide)
      · rintro ⟨f2, r2, hc, h20⟩
        cases hc
        rw [if_pos h20]
  · unfold classify_day_push_entry
    cases hd : entry.data with
    | nil =>
      simp only []
      constructor
      · intro h; exact absurd h (by decide)
      · rintro ⟨f, r, hc, _⟩; cases hc
    | cons f r =>
      simp only []
      constructor
      · intro h
        split_ifs at h with h20 h4
        · exact absurd h (by decide)
        · exact ⟨f, r, rfl, h4⟩
        · exact absurd h (by decide)
      · rintro ⟨f2, r2, hc, h4⟩
        cases hc
        rw [if_neg (by omega), if_pos h4]
  · intro h
    unfold validate_day_push_intervals
    rw [if_pos h]
  · intro hnone hlen
    unfold validate_day_push_intervals
    rw [if_neg (by omega), hnone]
  · exact fun r hr hn => parseTimestamps_none_of_mem entry.data r hr hn
  · intro ts hts hlen
    unfold validate_day_push_intervals
    rw [if_neg (by omega), hts]
    simp only []
    exact all_zip_tail_iff_chain _ (sortInts ts)

/-- C7 witness: four rows of four values spaced exactly 30 minutes apart
classify as "half_hourly" and validate true; shifting the last row by one
second invalidates, via `c7_day_push_classify_validate`. -/
theorem c7_day_push_classify_validate_witness :
    classify_day_push_entry sampleHalfHourEntry = "half_hourly" ∧
    validate_day_push_intervals sampleHalfHourEntry "half_hourly" = true ∧
    validate_day_push_intervals sampleHalfHourEntryShifted "half_hourly" = false := by
  refine ⟨?_, ?_, ?_⟩
  · exact (c7_day_push_classify_validate sampleHalfHourEntry "half_hourly"
      (Or.inr rfl)).2.1.mpr ⟨halfHourRow "2026-01-13T10:00:00+03:00", _, rfl, rfl⟩
  · refine ((c7_day_push_classify_validate sampleHalfHourEntry "half_hourly"
      (Or.inr rfl)).2.2.2.2.2 [1768287600, 1768289400, 1768291200, 1768293000]
      (by decide) (by decide)).mpr ?_
    have hif : (if ("half_hourly" : String) = "daily" then (86400 : Int) else 1800) = 1800 := by
      decide
    simp only [hif]
    norm_num [sortInts, insertSorted, List.chain'_cons, List.chain'_singleton]
  · have hiff := (c7_day_push_classify_validate sampleHalfHourEntryShifted "half_hourly"
      (Or.inr rfl)).2.2.2.2.2 [1768287600, 1768289400, 1768291200, 1768293001]
      (by decide) (by decide)
    have hif : (if ("half_hourly" : String) = "daily" then (86400 : Int) else 1800) = 1800 := by
      decide
    have hnc : ¬ (sortInts [1768287600, 1768289400, 1768291200, 1768293001]).Chain'
        (fun a b => b - a = if ("half_hourly" : String) = "daily" then 86400 else 1800) := by
      simp only [hif]
      norm_num [sortInts, insertSorted, List.chain'_cons, List.chain'_singleton]
    cases hb : validate_day_push_intervals sampleHalfHourEntryShifted "half_hourly" with
    | false => rfl
    | true => exact absurd (hiff.mp hb) hnc

theorem litPfx_self : ∀ (ps rest : List Char), litPfx ps (ps ++ rest) = some rest
  | [], _ => rfl
  | p :: ps, rest => by
    simp only [List.cons_append, litPfx, if_pos rfl]
    exact litPfx_self ps rest

theorem litPfx_decomp : ∀ (ps cs rest : List Char), litPfx ps cs = some rest → cs = ps ++ rest
  | [], cs, rest, h => by
    simp only [litPfx] at h
    cases h
    rfl
  | p :: ps, [], rest, h => by
    simp only [litPfx] at h
    cases h
  | p :: ps, c :: cs, rest, h => by
    simp only [litPfx] at h
    by_cases hc : c = p
    · rw [if_pos hc] at h
      rw [List.cons_append, hc, litPfx_decomp ps cs rest h]
    · rw [if_neg hc] at h
      cases h

theorem dropWhile_head_not (p : Char → Bool) : ∀ (l : List Char) (c : Char) (t : List Char),
    l.dropWhile p = c :: t → p c = false
  | [], c, t, h => by simp at h
  | a :: l, c, t, h => by
    rw [List.dropWhile_cons] at h
    by_cases pa : p a = true
    · rw [if_pos pa] at h
      exact dropWhile_head_not p l c t h
    · rw [if_neg pa] at h
      cases h
      simpa using pa

theorem takeWhile_dropWhile_app (p : Char → Bool) : ∀ (l r : List Char),
    (∀ c ∈ l, p c = true) → (∀ c t, r = c :: t → p c = false) →
    (l ++ r).takeWhile p = l ∧ (l ++ r).dropWhile p = r
  | [], r, _, hr => by
    rw [List.nil_append]
    cases r with
    | nil => exact ⟨rfl, rfl⟩
    | cons c t =>
      have hc := hr c t rfl
      rw [List.takeWhile_cons, List.dropWhile_cons, hc]
      exact ⟨rfl, rfl⟩
  | a :: l, r, hl, hr => by
    have pa := hl a (List.mem_cons_self a l)
    have ih := takeWhile_dropWhile_app p l r (fun c hc => hl c (List.mem_cons_of_mem _ hc)) hr
    rw [List.cons_append, List.takeWhile_cons, List.dropWhile_cons, pa]
    simp only [if_pos]
    exact ⟨by rw [ih.1], ih.2⟩

theorem takeRun1_exact (p : Char → Bool) (l r : List Char) (hne : l ≠ [])
    (hl : ∀ c ∈ l, p c = true) (hr : ∀ c t, r = c :: t → p c = false) :
    takeRun1 p (l ++ r) = some (l, r) := by
  obtain ⟨ht, hd⟩ := takeWhile_dropWhile_app p l r hl hr
  unfold takeRun1
  simp only []
  rw [ht, hd, if_neg]
  cases l with
  | nil => exact absurd rfl hne
  | cons a t => simp

theorem takeRun1_decomp (p : Char → Bool) (cs l r : List Char)
    (h : takeRun1 p cs = some (l, r)) :
    cs = l ++ r ∧ l ≠ [] ∧ (∀ c ∈ l, p c = true) ∧ (∀ c t, r = c :: t → p c = false) := by
  unfold takeRun1 at h
  simp only [] at h
  split at h
  · cases h
  · rename_i hni
    cases h
    refine ⟨(List.takeWhile_append_dropWhile (p := p) (l := cs)).symm, ?_, ?_, ?_⟩
    · intro hc
      rw [hc] at hni
      exact hni rfl
    · intro c hc
      exact List.mem_takeWhile_imp hc
    · intro c t hct
      exact dropWhile_head_not p cs c t hct

theorem mem_app_dot_elim (a b : List Char) (c : Char) (hc : c ∈ a ++ '.' :: b) :
    c ∈ a ∨ c = '.' ∨ c ∈ b := by
  rcases List.mem_append.1 hc with h | h
  · exact Or.inl h
  · rcases List.mem_cons.1 h with h | h
    · exact Or.inr (Or.inl h)
    · exact Or.inr (Or.inr h)

theorem srcMatch_of_specMatch (cs : List Char) (g : String × String × String)
    (h : specMatchAt cs = some g) : (srcMatchAt cs).isSome = true := by
  unfold specMatchAt at h
  cases e1 : litPfx "<sn=".toList cs with
  | none => rw [e1] at h; cases h
  | some cs1 =>
  rw [e1] at h
  simp only [] at h
  cases e2 : takeRun1 (fun c => !isPySpace c) cs1 with
  | none => rw [e2] at h; cases h
  | some pr2 =>
  obtain ⟨sn, cs2⟩ := pr2
  rw [e2] at h
  simp only [] at h
  cases e3 : litPfx " ip=".toList cs2 with
  | none => rw [e3] at h; cases h
  | some cs3 =>
  rw [e3] at h
  simp only [] at h
  cases e4 : takeRun1 Char.isDigit cs3 with
  | none => rw [e4] at h; cases h
  | some pr4 =>
  obtain ⟨d1, cs4⟩ := pr4
  rw [e4] at h
  simp only [] at h
  cases e5 : litPfx ".".toList cs4 with
  | none => rw [e5] at h; cases h
  | some cs5 =>
  rw [e5] at h
  simp only [] at h
  cases e6 : takeRun1 Char.isDigit cs5 with
  | none => rw [e6] at h; cases h
  | some pr6 =>
  obtain ⟨d2, cs6⟩ := pr6
  rw [e6] at h
  simp only [] at h
  cases e7 : litPfx ".".toList cs6 with
  | none => rw [e7] at h; cases h
  | some cs7 =>
  rw [e7] at h
  simp only [] at h
  cases e8 : takeRun1 Char.isDigit cs7 with
  | none => rw [e8] at h; cases h
  | some pr8 =>
  obtain ⟨d3, cs8⟩ := pr8
  rw [e8] at h
  simp only [] at h
  cases e9 : litPfx ".".toList cs8 with
  | none => rw [e9] at h; cases h
  | some cs9 =>
  rw [e9] at h
  simp only [] at h
  cases e10 : takeRun1 Char.isDigit cs9 with
  | none => rw [e10] at h; cases h
  | some pr10 =>
  obtain ⟨d4, cs10⟩ := pr10
  rw [e10] at h
  simp only [] at h
  cases e11 : litPfx " pt=".toList cs10 with
  | none => rw [e11] at h; cases h
  | some cs11 =>
  rw [e11] at h
  simp only [] at h
  cases e12 : takeRun1 Char.isDigit cs11 with
  | none => rw [e12] at h; cases h
  | some pr12 =>
  obtain ⟨pt, cs12⟩ := pr12
  rw [e12] at h
  simp only [] at h
  cases e13 : litPfx ">".toList cs12 with
  | none => rw [e13] at h; cases h
  | some cs13 =>
  clear h
  have hcs2 : cs2 = ' ' :: 'i' :: 'p' :: '=' :: cs3 := litPfx_decomp _ _ _ e3
  obtain ⟨hcs3eq, hd1ne, hd1all, _⟩ := takeRun1_decomp _ _ _ _ e4
  have hcs4 : cs4 = '.' :: cs5 := litPfx_decomp _ _ _ e5
  obtain ⟨hcs5eq, hd2ne, hd2all, _⟩ := takeRun1_decomp _ _ _ _ e6
  have hcs6 : cs6 = '.' :: cs7 := litPfx_decomp _ _ _ e7
  obtain ⟨hcs7eq, hd3ne, hd3all, _⟩ := takeRun1_decomp _ _ _ _ e8
  have hcs8 : cs8 = '.' :: cs9 := litPfx_decomp _ _ _ e9
  obtain ⟨hcs9eq, hd4ne, hd4all, _⟩ := takeRun1_decomp _ _ _ _ e10
  have hcs10 : cs10 = ' ' :: 'p' :: 't' :: '=' :: cs11 := litPfx_decomp _ _ _ e11
  have hshape : cs3 =
      d1 ++ '.' :: (d2 ++ '.' :: (d3 ++ '.' :: (d4 ++ (' ' :: 'p' :: 't' :: '=' :: cs11)))) := by
    rw [hcs3eq, hcs4, hcs5eq, hcs6, hcs7eq, hcs8, hcs9eq, hcs10]
  have hsp1 : takeRun1 isPySpace cs2 = some ([' '], 'i' :: 'p' :: '=' :: cs3) := by
    rw [hcs2]
    exact takeRun1_exact isPySpace [' '] ('i' :: 'p' :: '=' :: cs3) (by simp)
      (by intro c hc; simp at hc; subst hc; rfl)
      (by intro c t hct; injection hct with h1 _; subst h1; rfl)
  have hlit1 : litPfx "ip=".toList ('i' :: 'p' :: '=' :: cs3) = some cs3 :=
    litPfx_self "ip=".toList cs3
  have hipRun : takeRun1 (fun c => c.isDigit || c == '.') cs3 =
      some (d1 ++ '.' :: (d2 ++ '.' :: (d3 ++ '.' :: d4)),
        ' ' :: 'p' :: 't' :: '=' :: cs11) := by
    rw [hshape]
    have hassoc :
        d1 ++ '.' :: (d2 ++ '.' :: (d3 ++ '.' :: (d4 ++ (' ' :: 'p' :: 't' :: '=' :: cs11)))) =
          (d1 ++ '.' :: (d2 ++ '.' :: (d3 ++ '.' :: d4))) ++
            (' ' :: 'p' :: 't' :: '=' :: cs11) := by
      simp [List.append_assoc]
    rw [hassoc]
    apply takeRun1_exact
    · cases d1 with
      | nil => exact absurd rfl hd1ne
      | cons a t => simp
    · intro c hc
      rcases mem_app_dot_elim _ _ _ hc with h | h | hc2
      · simp [hd1all c h]
      · subst h; rfl
      · rcases mem_app_dot_elim _ _ _ hc2 with h | h | hc3
        · simp [hd2all c h]
        · subst h; rfl
        · rcases mem_app_dot_elim _ _ _ hc3 with h | h | h
          · simp [hd3all c h]
          · subst h; rfl
          · simp [hd4all c h]
    · intro c t hct
      injection hct with h1 _
      subst h1
      rfl
  have hsp2 : takeRun1 isPySpace (' ' :: 'p' :: 't' :: '=' :: cs11) =
      some ([' '], 'p' :: 't' :: '=' :: cs11) :=
    takeRun1_exact isPySpace [' '] ('p' :: 't' :: '=' :: cs11) (by simp)
      (by intro c hc; simp at hc; subst hc; rfl)
      (by intro c t hct; injection hct with h1 _; subst h1; rfl)
  have hlit2 : litPfx "pt=".toList ('p' :: 't' :: '=' :: cs11) = some cs11 :=
    litPfx_self "pt=".toList cs11
  unfold srcMatchAt
  rw [e1]
  simp only []
  rw [e2]
  simp only []
  rw [hsp1]
  simp only []
  rw [hlit1]
  simp only []
  rw [hipRun]
  simp only []
  rw [hsp2]
  simp only []
  rw [hlit2]
  simp only []
  rw [e12]
  simp only []
  rw [e13]
  rfl

theorem searchSrc_isSome_of_searchSpec : ∀ cs : List Char,
    (searchSpecPattern cs).isSome = true → (searchSrc cs).isSome = true
  | [] => by intro h; exact absurd h (by decide)
  | c :: t => by
    intro h
    unfold searchSpecPattern at h
    unfold searchSrc
    cases e1 : specMatchAt (c :: t) with
    | some g =>
      have h1 := srcMatch_of_specMatch (c :: t) g e1
      cases e2 : srcMatchAt (c :: t) with
      | some g2 => rfl
      | none => rw [e2] at h1; exact absurd h1 (by decide)
    | none =>
      rw [e1] at h
      simp only [] at h
      cases e2 : srcMatchAt (c :: t) with
      | some g2 => rfl
      | none =>
        simp only []
        exact searchSrc_isSome_of_searchSpec t h

/-- Claim C9 (amended). Every buffer whose decoded text matches the spec's
written pattern `<sn=(\S+) ip=(\d+\.\d+\.\d+\.\d+) pt=(\d+)>` is indeed
treated as an autoconnect event by the implementation (its looser pattern
`<sn=(\S+)\s+ip=([\d.]+)\s+pt=(\d+)>` then also matches, so the callback
path fires and no frame response is generated); on the claim's example
`<sn=ABC123 ip=10.0.0.5 pt=4059>` the extracted fields are serial
"ABC123", ip "10.0.0.5", port 4059, and the variant without the `pt=`
token is not autoconnect. The captured fields are those of the
implementation's pattern at its leftmost match, which can differ from the
spec pattern's captures (see the counterexample). -/
theorem c9_autoconnect_amended :
    (∀ (text : String) (g : String × String × String),
      searchSpecPattern text.toList = some g →
        (autoconnectEvent? text).isSome = true) ∧
    autoconnectEvent? "<sn=ABC123 ip=10.0.0.5 pt=4059>" =
      some ("ABC123", "10.0.0.5", 4059) ∧
    autoconnectEvent? "<sn=ABC123 ip=10.0.0.5>" = none := by
  refine ⟨?_, by decide, by decide⟩
  intro text g h
  have hs : (searchSpecPattern text.toList).isSome = true := by rw [h]; rfl
  have h2 := searchSrc_isSome_of_searchSpec text.toList hs
  unfold autoconnectEvent?
  cases e : searchSrc text.toList with
  | some g2 => rfl
  | none => rw [e] at h2; exact absurd h2 (by decide)

/-- Claim C9, counterexample. On the buffer
`<sn=A ip=1.2 pt=3> <sn=B ip=1.2.3.4 pt=5>` the spec's strict pattern
first matches at the second token, capturing ("B", "1.2.3.4", "5"),
but the implementation's looser pattern matches at the first token, so
the event actually reported is ("A", "1.2", 3): the spec's pattern does
not describe the fields the code extracts. -/
theorem c9_spec_pattern_counterexample :
    searchSpecPattern ("<sn=A ip=1.2 pt=3> <sn=B ip=1.2.3.4 pt=5>").toList =
      some ("B", "1.2.3.4", "5") ∧
    autoconnectEvent? "<sn=A ip=1.2 pt=3> <sn=B ip=1.2.3.4 pt=5>" =
      some ("A", "1.2", 3) ∧
    (("A", "1.2", (3 : Nat)) : String × String × Nat) ≠ ("B", "1.2.3.4", 5) := by
  refine ⟨by decide, by decide, by decide⟩

/-- Witness for C9: the spec pattern matches the claim's example, and the
theorem then yields that the implementation reports an autoconnect event. -/
theorem c9_autoconnect_amended_witness :
    searchSpecPattern ("<sn=ABC123 ip=10.0.0.5 pt=4059>").toList =
      some ("ABC123", "10.0.0.5", "4059") ∧
    (autoconnectEvent? "<sn=ABC123 ip=10.0.0.5 pt=4059>").isSome = true :=
  ⟨by decide,
   c9_autoconnect_amended.1 "<sn=ABC123 ip=10.0.0.5 pt=4059>"
     ("ABC123", "10.0.0.5", "4059") (by decide)⟩
